import Mathlib

/-!
# cftool: a shallow embedding of `main.go`

The program is a sequential command-line client: it resolves a zone id with one
HTTP GET and then issues at most one further request.  The embedding threads the
list of requests handed to `httpClient.Do` so far (the only state the program
has) through every operation, and takes the behaviour of the outside world
(request validation by `net/http`, the network, the process environment) as
explicit parameters.

Go strings that the program only compares, copies or prints are modelled by
Lean strings (well-formed Unicode text); the two values whose bytes the program
has decoded, the mode and the level handed to `json.Marshal`, are byte strings.
-/

namespace Cftool

/-! ## JSON text

`GetZoneId` hands the response body to `gjson.Get`, a function of the imported
package `github.com/tidwall/gjson`.  The reader of JSON text in this section
and the path lookup further down are the model of that call; they are used by
`gjsonGetString` only.  The grammar that says what a JSON text is comes after
the reader and does not depend on it. -/

/-- JSON values as they appear in a response body.  Numbers keep their literal
text. -/
inductive Json where
  | null
  | bool (b : Bool)
  | num (raw : List Char)
  | str (s : String)
  | arr (elems : List Json)
  | obj (members : List (String × Json))

/-- JSON insignificant whitespace. -/
def isWs (c : Char) : Bool :=
  c == ' ' || c == '\n' || c == '\r' || c == '\t'

/-- Drop leading whitespace. -/
def skipWs : List Char → List Char
  | [] => []
  | c :: cs => if isWs c then skipWs cs else c :: cs

/-- Value of one hexadecimal digit. -/
def hexVal (c : Char) : Option Nat :=
  if 0x30 ≤ c.toNat ∧ c.toNat ≤ 0x39 then some (c.toNat - 0x30)
  else if 0x61 ≤ c.toNat ∧ c.toNat ≤ 0x66 then some (c.toNat - 0x61 + 10)
  else if 0x41 ≤ c.toNat ∧ c.toNat ≤ 0x46 then some (c.toNat - 0x41 + 10)
  else none

/-- Code unit named by the four hexadecimal digits of a `\u` escape. -/
def hex4 (a b c d : Char) : Option Nat :=
  match hexVal a, hexVal b, hexVal c, hexVal d with
  | some x, some y, some z, some w => some (((x * 16 + y) * 16 + z) * 16 + w)
  | _, _, _, _ => none

/-- Character named by a one-letter escape. -/
def simpleEscape (c : Char) : Option Char :=
  if c == '"' then some '"'
  else if c == '\\' then some '\\'
  else if c == '/' then some '/'
  else if c == 'b' then some (Char.ofNat 8)
  else if c == 'f' then some (Char.ofNat 12)
  else if c == 'n' then some '\n'
  else if c == 'r' then some '\r'
  else if c == 't' then some '\t'
  else none

/-- The code of the low surrogate whose `\u` escape the input starts with, if it
starts with one. -/
def lowAfter (cs : List Char) : Option Nat :=
  match cs with
  | b :: u :: l1 :: l2 :: l3 :: l4 :: _ =>
    if b == '\\' && u == 'u' then
      match hex4 l1 l2 l3 l4 with
      | some lo => if 0xDC00 ≤ lo ∧ lo ≤ 0xDFFF then some lo else none
      | none => none
    else none
  | _ => none

/-- Read the escape that follows a backslash: the character it names and the
number of characters it takes.  A `\u` escape of a high surrogate that is
followed by a `\u` escape of a low surrogate names one character together with
it; any other surrogate escape is read as U+FFFD, as Go's decoders read it. -/
def readEscape (cs : List Char) : Option (Char × Nat) :=
  match cs with
  | [] => none
  | e :: rest =>
    if e == 'u' then
      match rest with
      | h1 :: h2 :: h3 :: h4 :: rest2 =>
        match hex4 h1 h2 h3 h4 with
        | none => none
        | some hi =>
          if 0xD800 ≤ hi ∧ hi ≤ 0xDBFF then
            match lowAfter rest2 with
            | some lo =>
              some (Char.ofNat (0x10000 + (hi - 0xD800) * 0x400 + (lo - 0xDC00)), 11)
            | none => some (Char.ofNat 0xFFFD, 5)
          else if 0xDC00 ≤ hi ∧ hi ≤ 0xDFFF then some (Char.ofNat 0xFFFD, 5)
          else some (Char.ofNat hi, 5)
      | _ => none
    else
      match simpleEscape e with
      | some x => some (x, 1)
      | none => none

/-- Put a character in front of the text read so far. -/
def consChar (x : Char) : Option (List Char × List Char) → Option (List Char × List Char)
  | some (xs, r) => some (x :: xs, r)
  | none => none

/-- Read a string literal whose opening quote has been consumed: the decoded
characters and the input after the closing quote.  The first argument counts
the characters of an escape that are still to be passed over; reading starts
with 0. -/
def parseString : Nat → List Char → Option (List Char × List Char)
  | _, [] => none
  | k + 1, _ :: rest => parseString k rest
  | 0, c :: rest =>
    if c == '"' then some ([], rest)
    else if c == '\\' then
      match readEscape rest with
      | some (x, width) => consChar x (parseString width rest)
      | none => none
    else if c.toNat < 0x20 then none
    else consChar c (parseString 0 rest)

/-- Characters that may occur in a number literal. -/
def isNumChar (c : Char) : Bool :=
  c.isDigit || c == '-' || c == '+' || c == '.' || c == 'e' || c == 'E'

/-- Longest run of number characters and the input after it. -/
def spanNum : List Char → List Char × List Char
  | [] => ([], [])
  | c :: cs =>
    if isNumChar c then ((spanNum cs).1.cons c, (spanNum cs).2) else ([], c :: cs)

/-- Expect the given literal at the head of the input. -/
def expectLit : List Char → List Char → Option (List Char)
  | [], cs => some cs
  | _ :: _, [] => none
  | l :: ls, c :: cs => if l == c then expectLit ls cs else none

/-- The elements of an array after the first one, up to the closing bracket;
`pv` reads one value. -/
def parseArrayTail (pv : List Char → Option (Json × List Char)) :
    Nat → List Char → Option (List Json × List Char)
  | 0, _ => none
  | n + 1, cs =>
    match skipWs cs with
    | ']' :: rest => some ([], rest)
    | ',' :: rest =>
      match pv rest with
      | some (v, r) =>
        match parseArrayTail pv n r with
        | some (vs, r2) => some (v :: vs, r2)
        | none => none
      | none => none
    | _ => none

/-- One `"key" : value` member; `pv` reads one value. -/
def parseMember (pv : List Char → Option (Json × List Char)) (cs : List Char) :
    Option ((String × Json) × List Char) :=
  match skipWs cs with
  | '"' :: rest =>
    match parseString 0 rest with
    | some (k, r) =>
      match skipWs r with
      | ':' :: r2 =>
        match pv r2 with
        | some (v, r3) => some ((String.mk k, v), r3)
        | none => none
      | _ => none
    | none => none
  | _ => none

/-- The members of an object after the first one, up to the closing brace. -/
def parseObjectTail (pv : List Char → Option (Json × List Char)) :
    Nat → List Char → Option (List (String × Json) × List Char)
  | 0, _ => none
  | n + 1, cs =>
    match skipWs cs with
    | '\x7d' :: rest => some ([], rest)
    | ',' :: rest =>
      match parseMember pv rest with
      | some (m, r) =>
        match parseObjectTail pv n r with
        | some (ms, r2) => some (m :: ms, r2)
        | none => none
      | none => none
    | _ => none

/-- Read one JSON value, skipping leading whitespace.  The first argument
bounds the nesting depth and the number of items of one array or object. -/
def parseValue : Nat → List Char → Option (Json × List Char)
  | 0, _ => none
  | n + 1, cs =>
    match skipWs cs with
    | [] => none
    | c :: rest =>
      if c == '"' then
        match parseString 0 rest with
        | some (s, r) => some (Json.str (String.mk s), r)
        | none => none
      else if c == '[' then
        if (skipWs rest).head? = some ']' then some (Json.arr [], (skipWs rest).tail)
        else
          match parseValue n rest with
          | some (v, r) =>
            match parseArrayTail (parseValue n) n r with
            | some (vs, r2) => some (Json.arr (v :: vs), r2)
            | none => none
          | none => none
      else if c == '\x7b' then
        if (skipWs rest).head? = some '\x7d' then some (Json.obj [], (skipWs rest).tail)
        else
          match parseMember (parseValue n) rest with
          | some (m, r) =>
            match parseObjectTail (parseValue n) n r with
            | some (ms, r2) => some (Json.obj (m :: ms), r2)
            | none => none
          | none => none
      else if c == 't' then
        (expectLit ['r', 'u', 'e'] rest).map (fun r => (Json.bool true, r))
      else if c == 'f' then
        (expectLit ['a', 'l', 's', 'e'] rest).map (fun r => (Json.bool false, r))
      else if c == 'n' then
        (expectLit ['u', 'l', 'l'] rest).map (fun r => (Json.null, r))
      else if c.isDigit || c == '-' then
        some (Json.num (spanNum (c :: rest)).1, (spanNum (c :: rest)).2)
      else none

/-- A whole document: one value surrounded by optional whitespace.  A text of
`k` characters is read with bound `k + 1`. -/
def parseJson (text : String) : Option Json :=
  match parseValue (text.length + 1) text.data with
  | some (v, rest) => if skipWs rest = [] then some v else none
  | none => none

/-! ## The grammar of JSON texts (RFC 8259)

What it means for a text to be a JSON text for a value, stated on its own:
nothing here mentions the reader.  RFC 8259 writes a character outside the
Basic Multilingual Plane as a pair of surrogate escapes and leaves open what a
surrogate escape outside a pair stands for; it stands for U+FFFD here. -/

/-- A run of insignificant whitespace: spaces, line feeds, carriage returns and
tabs. -/
def Blank (w : List Char) : Prop :=
  ∀ c ∈ w, c = ' ' ∨ c = '\n' ∨ c = '\r' ∨ c = '\t'

/-- The hexadecimal digits and their values. -/
def hexDigits : List (Char × Nat) :=
  [('0', 0), ('1', 1), ('2', 2), ('3', 3), ('4', 4), ('5', 5), ('6', 6), ('7', 7),
   ('8', 8), ('9', 9), ('a', 10), ('b', 11), ('c', 12), ('d', 13), ('e', 14), ('f', 15),
   ('A', 10), ('B', 11), ('C', 12), ('D', 13), ('E', 14), ('F', 15)]

/-- Four hexadecimal digits and the number they write. -/
def HexQuad (a b c d : Char) (n : Nat) : Prop :=
  ∃ x y z w, (a, x) ∈ hexDigits ∧ (b, y) ∈ hexDigits ∧ (c, z) ∈ hexDigits ∧
    (d, w) ∈ hexDigits ∧ n = ((x * 16 + y) * 16 + z) * 16 + w

/-- The one-letter escapes and the characters they name. -/
def escapeLetters : List (Char × Char) :=
  [('"', '"'), ('\\', '\\'), ('/', '/'), ('b', Char.ofNat 8), ('f', Char.ofNat 12),
   ('n', '\n'), ('r', '\r'), ('t', '\t')]

/-- The text starts with the `\u` escape of a low surrogate. -/
def StartsWithLow (t : List Char) : Prop :=
  ∃ a b c d lo rest, t = '\\' :: 'u' :: a :: b :: c :: d :: rest ∧ HexQuad a b c d lo ∧
    0xDC00 ≤ lo ∧ lo ≤ 0xDFFF

/-- `StrText s t`: the text `t`, written between two quotes, is a string literal
for the characters `s`.  The escape of a high surrogate directly followed by
the escape of a low surrogate is a pair and stands for one character; the
escape of a surrogate that is no part of a pair stands for U+FFFD. -/
inductive StrText : List Char → List Char → Prop where
  | done : StrText [] []
  | plain (c : Char) (s t : List Char) : c ≠ '"' → c ≠ '\\' → 0x20 ≤ c.toNat →
      StrText s t → StrText (c :: s) (c :: t)
  | letter (e x : Char) (s t : List Char) : (e, x) ∈ escapeLetters →
      StrText s t → StrText (x :: s) ('\\' :: e :: t)
  | unicode (a b c d : Char) (n : Nat) (s t : List Char) : HexQuad a b c d n →
      n < 0xD800 ∨ 0xDFFF < n → StrText s t →
      StrText (Char.ofNat n :: s) ('\\' :: 'u' :: a :: b :: c :: d :: t)
  | pair (a b c d a2 b2 c2 d2 : Char) (hi lo : Nat) (s t : List Char) :
      HexQuad a b c d hi → HexQuad a2 b2 c2 d2 lo →
      0xD800 ≤ hi ∧ hi ≤ 0xDBFF → 0xDC00 ≤ lo ∧ lo ≤ 0xDFFF → StrText s t →
      StrText (Char.ofNat (0x10000 + (hi - 0xD800) * 0x400 + (lo - 0xDC00)) :: s)
        ('\\' :: 'u' :: a :: b :: c :: d :: '\\' :: 'u' :: a2 :: b2 :: c2 :: d2 :: t)
  | lone (a b c d : Char) (n : Nat) (s t : List Char) : HexQuad a b c d n →
      0xD800 ≤ n ∧ n ≤ 0xDFFF → (n ≤ 0xDBFF → ¬ StartsWithLow t) → StrText s t →
      StrText (Char.ofNat 0xFFFD :: s) ('\\' :: 'u' :: a :: b :: c :: d :: t)

/-- A non-empty run of decimal digits. -/
def Digits (ds : List Char) : Prop :=
  ds ≠ [] ∧ ∀ c ∈ ds, c.isDigit = true

/-- A number literal: an optional minus sign, an integer part without a
superfluous leading zero, an optional fraction and an optional exponent. -/
def NumText (raw : List Char) : Prop :=
  ∃ sign int frac exp, raw = sign ++ int ++ frac ++ exp ∧
    (sign = [] ∨ sign = ['-']) ∧
    Digits int ∧ (int = ['0'] ∨ int.head? ≠ some '0') ∧
    (frac = [] ∨ ∃ ds, Digits ds ∧ frac = '.' :: ds) ∧
    (exp = [] ∨ ∃ e s ds, (e = 'e' ∨ e = 'E') ∧ (s = [] ∨ s = ['+'] ∨ s = ['-']) ∧
      Digits ds ∧ exp = e :: (s ++ ds))

/-- What a piece of JSON text stands for: a value, the rest of an array after
one of its elements, one member of an object, or the rest of an object after
one of its members. -/
inductive Syn where
  | value (j : Json)
  | items (vs : List Json)
  | member (m : String × Json)
  | members (ms : List (String × Json))

/-- `Text x t`: the text `t` is written according to the grammar of RFC 8259
and stands for `x`.  Whitespace may surround every bracket, brace, comma and
colon. -/
inductive Text : Syn → List Char → Prop where
  | null : Text (Syn.value Json.null) ['n', 'u', 'l', 'l']
  | true : Text (Syn.value (Json.bool Bool.true)) ['t', 'r', 'u', 'e']
  | false : Text (Syn.value (Json.bool Bool.false)) ['f', 'a', 'l', 's', 'e']
  | num (raw : List Char) : NumText raw → Text (Syn.value (Json.num raw)) raw
  | str (s t : List Char) : StrText s t →
      Text (Syn.value (Json.str (String.mk s))) ('"' :: (t ++ ['"']))
  | arrEmpty (w : List Char) : Blank w → Text (Syn.value (Json.arr [])) ('[' :: (w ++ [']']))
  | arr (w tv tl : List Char) (v : Json) (vs : List Json) : Blank w →
      Text (Syn.value v) tv → Text (Syn.items vs) tl →
      Text (Syn.value (Json.arr (v :: vs))) ('[' :: (w ++ (tv ++ tl)))
  | itemsEnd (w : List Char) : Blank w → Text (Syn.items []) (w ++ [']'])
  | itemsMore (w1 w2 tv tl : List Char) (v : Json) (vs : List Json) : Blank w1 → Blank w2 →
      Text (Syn.value v) tv → Text (Syn.items vs) tl →
      Text (Syn.items (v :: vs)) (w1 ++ ',' :: (w2 ++ (tv ++ tl)))
  | objEmpty (w : List Char) : Blank w →
      Text (Syn.value (Json.obj [])) ('\x7b' :: (w ++ ['\x7d']))
  | obj (tm tl : List Char) (m : String × Json) (ms : List (String × Json)) :
      Text (Syn.member m) tm → Text (Syn.members ms) tl →
      Text (Syn.value (Json.obj (m :: ms))) ('\x7b' :: (tm ++ tl))
  | member (w1 w2 w3 k tk tv : List Char) (v : Json) : Blank w1 → Blank w2 → Blank w3 →
      StrText k tk → Text (Syn.value v) tv →
      Text (Syn.member (String.mk k, v))
        (w1 ++ '"' :: (tk ++ '"' :: (w2 ++ ':' :: (w3 ++ tv))))
  | membersEnd (w : List Char) : Blank w → Text (Syn.members []) (w ++ ['\x7d'])
  | membersMore (w tm tl : List Char) (m : String × Json) (ms : List (String × Json)) :
      Blank w → Text (Syn.member m) tm → Text (Syn.members ms) tl →
      Text (Syn.members (m :: ms)) (w ++ ',' :: (tm ++ tl))

/-- A JSON text for the value `doc`: one value between optional whitespace. -/
def JsonText (doc : Json) (text : List Char) : Prop :=
  ∃ w1 t w2, Blank w1 ∧ Blank w2 ∧ Text (Syn.value doc) t ∧ text = w1 ++ (t ++ w2)

/-! ## What the reader is shown to do -/

/-- The input does not go on with a character of a number literal. -/
def NoNum (rest : List Char) : Prop :=
  ∀ c tl, rest = c :: tl → isNumChar c = false

/-- `Reads x t`: the reader, started on `t` followed by any further input, takes
exactly `t` and yields `x`, whenever its bounds exceed the length of `t`. -/
def Reads : Syn → List Char → Prop
  | Syn.value j, t => ∀ n rest, t.length < n → NoNum rest →
      parseValue n (t ++ rest) = some (j, rest)
  | Syn.items vs, t => ∀ n m rest, t.length ≤ n → t.length < m →
      parseArrayTail (parseValue m) n (t ++ rest) = some (vs, rest)
  | Syn.member mb, t => ∀ m rest, t.length < m → NoNum rest →
      parseMember (parseValue m) (t ++ rest) = some (mb, rest)
  | Syn.members ms, t => ∀ n m rest, t.length ≤ n → t.length < m →
      parseObjectTail (parseValue m) n (t ++ rest) = some (ms, rest)

/-! ## The `gjson` lookup -/

/-- Split a path at its dots. -/
def splitPath : List Char → List (List Char)
  | [] => [[]]
  | c :: cs =>
    if c == '.' then [] :: splitPath cs
    else
      match splitPath cs with
      | [] => [[c]]
      | w :: ws => (c :: w) :: ws

/-- Decimal value of a run of digits, continuing from `acc`. -/
def digitsVal : List Char → Nat → Option Nat
  | [], acc => some acc
  | c :: cs, acc =>
    if c.isDigit then digitsVal cs (acc * 10 + (c.toNat - '0'.toNat)) else none

/-- An array index written in decimal. -/
def parseIndex (cs : List Char) : Option Nat :=
  if cs = [] then none else digitsVal cs 0

/-- First member carrying the key. -/
def lookupKey (k : String) : List (String × Json) → Option Json
  | [] => none
  | m :: ms => if m.1 = k then some m.2 else lookupKey k ms

/-- One step of a path: a key of an object, or a decimal index of an array. -/
def Json.child (j : Json) (comp : List Char) : Option Json :=
  match j with
  | Json.obj ms => lookupKey (String.mk comp) ms
  | Json.arr es =>
    match parseIndex comp with
    | some i => es.get? i
    | none => none
  | _ => none

/-- Follow a path of components downwards. -/
def Json.getPath : Json → List (List Char) → Option Json
  | j, [] => some j
  | j, c :: cs =>
    match j.child c with
    | some j2 => j2.getPath cs
    | none => none

/-- Modelled from the spec: `gjson.Get(json, path).String()` of the package
`github.com/tidwall/gjson`, which the program imports and whose code is not
part of the repository.  The spec says that the lookup "extracts the
identifier at the first position of the `result` array from the JSON response"
(the field `result.0.id`) and yields the empty string when nothing matches.
Accordingly: the path is followed through the parsed document, a string yields
its decoded text, a missing value or `null` yields `""`, and the booleans yield
`true` and `false`.  How numbers, arrays and objects are rendered, and what is
returned for a body that `parseJson` does not read, is left to the parameter
`other`. -/
def gjsonGetString (other : String → String → String) (json path : String) : String :=
  match parseJson json with
  | none => other json path
  | some doc =>
    match doc.getPath (splitPath path.data) with
    | none => ""
    | some Json.null => ""
    | some (Json.str s) => s
    | some (Json.bool true) => "true"
    | some (Json.bool false) => "false"
    | some _ => other json path

/-! ## Go strings

A Go `string` is a sequence of bytes that need not be well-formed UTF-8.  The
two values the program hands to `json.Marshal`, the mode of `DevelopmentMode`
and the level of `SecureLevel`, are modelled as byte strings, because
`json.Marshal` decodes them; the strings the program only compares, copies or
prints are Lean strings. -/

/-- A Go `string`: its bytes, each below 256. -/
structure GoString where
  bytes : List Nat
deriving DecidableEq, Repr

/-- UTF-8 encoding of one character. -/
def encodeChar (c : Char) : List Nat :=
  if c.toNat < 0x80 then [c.toNat]
  else if c.toNat < 0x800 then [0xC0 + c.toNat / 64, 0x80 + c.toNat % 64]
  else if c.toNat < 0x10000 then
    [0xE0 + c.toNat / 4096, 0x80 + c.toNat / 64 % 64, 0x80 + c.toNat % 64]
  else
    [0xF0 + c.toNat / 262144, 0x80 + c.toNat / 4096 % 64, 0x80 + c.toNat / 64 % 64,
      0x80 + c.toNat % 64]

/-- UTF-8 encoding of a text. -/
def encodeUtf8 : List Char → List Nat
  | [] => []
  | c :: cs => encodeChar c ++ encodeUtf8 cs

/-- A text as a Go string: its UTF-8 bytes.  String literals of the program are
such Go strings. -/
instance : Coe String GoString := ⟨fun s => ⟨encodeUtf8 s.data⟩⟩

/-- A continuation byte. -/
def isCont (b : Nat) : Bool := 0x80 ≤ b && b ≤ 0xBF

/-- Least second byte accepted after the lead byte `b0`. -/
def secondLo (b0 : Nat) : Nat := if b0 = 0xE0 then 0xA0 else if b0 = 0xF0 then 0x90 else 0x80

/-- Greatest second byte accepted after the lead byte `b0`. -/
def secondHi (b0 : Nat) : Nat := if b0 = 0xED then 0x9F else if b0 = 0xF4 then 0x8F else 0xBF

/-- The function `utf8.DecodeRuneInString`: the character at the head of the
bytes and its width.  For bytes that do not start a well-formed encoding Go
returns `RuneError` with width 1; that result is `(none, 1)` here. -/
def decodeRune (bs : List Nat) : Option Char × Nat :=
  match bs with
  | [] => (none, 1)
  | b0 :: rest =>
    if b0 < 0x80 then (some (Char.ofNat b0), 1)
    else if 0xC2 ≤ b0 ∧ b0 ≤ 0xDF then
      match rest with
      | b1 :: _ =>
        if isCont b1 then (some (Char.ofNat ((b0 - 0xC0) * 64 + (b1 - 0x80))), 2)
        else (none, 1)
      | _ => (none, 1)
    else if 0xE0 ≤ b0 ∧ b0 ≤ 0xEF then
      match rest with
      | b1 :: b2 :: _ =>
        if secondLo b0 ≤ b1 ∧ b1 ≤ secondHi b0 ∧ isCont b2 then
          (some (Char.ofNat (((b0 - 0xE0) * 64 + (b1 - 0x80)) * 64 + (b2 - 0x80))), 3)
        else (none, 1)
      | _ => (none, 1)
    else if 0xF0 ≤ b0 ∧ b0 ≤ 0xF4 then
      match rest with
      | b1 :: b2 :: b3 :: _ =>
        if secondLo b0 ≤ b1 ∧ b1 ≤ secondHi b0 ∧ isCont b2 ∧ isCont b3 then
          (some (Char.ofNat ((((b0 - 0xF0) * 64 + (b1 - 0x80)) * 64 + (b2 - 0x80)) * 64 +
            (b3 - 0x80))), 4)
        else (none, 1)
      | _ => (none, 1)
    else (none, 1)

/-- The bytes taken apart as a loop over `utf8.DecodeRuneInString` does: one
entry for each well-formed character and `none` for each byte that starts no
well-formed encoding.  The first argument counts the bytes of the character just
decoded that are still to be passed over; decoding starts with 0. -/
def decodePieces : Nat → List Nat → List (Option Char)
  | _, [] => []
  | k + 1, _ :: rest => decodePieces k rest
  | 0, b :: rest =>
    (decodeRune (b :: rest)).1 :: decodePieces ((decodeRune (b :: rest)).2 - 1) rest

/-- The text of a Go string, with U+FFFD in the place of every byte that starts
no well-formed encoding. -/
def GoString.toText (s : GoString) : String :=
  String.mk ((decodePieces 0 s.bytes).map (fun piece => piece.getD (Char.ofNat 0xFFFD)))

/-! ## `encoding/json` output for the two payload maps -/

/-- What `json.Marshal` writes for one well-formed character of a string (HTML escaping
is on by default): quote and backslash are escaped, control characters use the
short escapes where Go has them and `\u00XX` otherwise, `<`, `>`, `&` and the
line separators U+2028 and U+2029 use `\uXXXX`, everything else is copied.
Backspace and form feed are written `\b` and `\f` as Go 1.22 and later do;
earlier releases write `\u0008` and `\u000c`, which name the same characters. -/
def goEscapeChar (c : Char) : List Char :=
  if c == '"' then ['\\', '"']
  else if c == '\\' then ['\\', '\\']
  else if c == '\n' then ['\\', 'n']
  else if c == '\r' then ['\\', 'r']
  else if c == '\t' then ['\\', 't']
  else if c.toNat == 8 then ['\\', 'b']
  else if c.toNat == 12 then ['\\', 'f']
  else if c.toNat < 0x20 || c == '<' || c == '>' || c == '&' then
    ['\\', 'u', '0', '0', Nat.digitChar (c.toNat / 16), Nat.digitChar (c.toNat % 16)]
  else if c.toNat == 0x2028 then ['\\', 'u', '2', '0', '2', '8']
  else if c.toNat == 0x2029 then ['\\', 'u', '2', '0', '2', '9']
  else [c]

/-- What `json.Marshal` writes for one step of its loop over the bytes: the
escaped character, or the six characters `\ufffd` for a byte that starts no
well-formed encoding. -/
def goEscapePiece : Option Char → List Char
  | some c => goEscapeChar c
  | none => ['\\', 'u', 'f', 'f', 'f', 'd']

/-- Escaped text of a string, without the surrounding quotes. -/
def goEscape : List (Option Char) → List Char
  | [] => []
  | piece :: rest => goEscapePiece piece ++ goEscape rest

/-- A JSON string literal as `json.Marshal` writes it. -/
def goQuote (s : GoString) : String :=
  String.mk ('"' :: (goEscape (decodePieces 0 s.bytes) ++ ['"']))

/-- Members of an object, separated by commas; the values are already encoded. -/
def joinMembers : List (GoString × String) → String
  | [] => ""
  | [m] => goQuote m.1 ++ ":" ++ m.2
  | m :: ms => goQuote m.1 ++ ":" ++ m.2 ++ "," ++ joinMembers ms

/-- Go `error` values, identified by their message. -/
abbrev Error := String

/-- The function `json.Marshal` on a `map[string]string`, given as its entries
in key order.  Encoding a map of strings cannot fail, so the result is always
`ok`; the error result is kept because the callers test it.  Bytes that are no
well-formed UTF-8 are written as `\ufffd`. -/
def jsonMarshalStringMap (m : List (GoString × GoString)) : Except Error String :=
  Except.ok ("\x7b" ++ joinMembers (m.map (fun kv => (kv.1, goQuote kv.2))) ++ "\x7d")

/-- The function `json.Marshal` on a `map[string]bool`, given as its entries
in key order. -/
def jsonMarshalBoolMap (m : List (GoString × Bool)) : Except Error String :=
  Except.ok ("\x7b" ++
    joinMembers (m.map (fun kv => (kv.1, if kv.2 then "true" else "false"))) ++ "\x7d")

/-! ## The client -/

/-- The constant `ApiUrl`. -/
def ApiUrl : String := "https://api.cloudflare.com/client/v4"

/-- The struct `Params`: the credentials. -/
structure Params where
  Email : String
  Key : String
deriving DecidableEq, Repr

/-- Header fields in the order in which `Header.Add` appended them. -/
abbrev Header := List (String × String)

/-- The method `Header.Add`.  The keys used by the program are already in
canonical form, so `Add` stores them as written. -/
def Header.Add (h : Header) (key value : String) : Header :=
  h ++ [(key, value)]

/-- An `http.Request` handed to `httpClient.Do`: method, URL string given to
`http.NewRequest`, header and body (`none` for the `nil` body of the GET). -/
structure Request where
  method : String
  url : String
  header : Header
  body : Option String
deriving DecidableEq, Repr

/-- What comes back from `httpClient.Do(req)` followed by `io.ReadAll`. -/
inductive Reply where
  | doErr (err : Error)
  | readErr (err : Error)
  | body (b : String)
deriving DecidableEq, Repr

/-- The world outside the program. -/
structure Env where
  /-- The call `http.NewRequest(method, url, body)`: `none` when the request is
  built, `some err` when the method or the URL is rejected. -/
  newRequest : String → String → Option Error
  /-- The network: the reply to a request, given the requests sent before it. -/
  roundTrip : List Request → Request → Reply
  /-- Rendering by `gjson` outside the modelled fragment (see `gjsonGetString`). -/
  gjsonOther : String → String → String
  /-- The function `os.Getenv`. -/
  getenv : String → String

/-- How a method of `Params` ends: it returns its pair `(string, error)`, or it
calls `log.Fatalf`, which writes the message and terminates the process with
status 1 before anything is returned. -/
inductive Ret where
  | ret (val : String) (err : Option Error)
  | fatal (msg : String)
deriving DecidableEq, Repr

/-- The three `req.Header.Add` calls made on every request. -/
def authHeader (p : Params) : Header :=
  ((Header.Add [] "X-Auth-Email" p.Email).Add "X-Auth-Key" p.Key).Add
    "Content-Type" "application/json"

/-- The method `(p *Params) GetZoneId(domain)`; `sent` lists the requests
already handed to `httpClient.Do`, and the second component of the result is
that list afterwards. -/
def GetZoneId (env : Env) (p : Params) (domain : String) (sent : List Request) :
    Ret × List Request :=
  let url := ApiUrl ++ "/zones?name=" ++ domain
  match env.newRequest "GET" url with
  | some err => (Ret.ret "" (some err), sent)
  | none =>
    let req : Request := ⟨"GET", url, authHeader p, none⟩
    match env.roundTrip sent req with
    | Reply.doErr err => (Ret.ret "" (some err), sent ++ [req])
    | Reply.readErr err => (Ret.ret "" (some err), sent ++ [req])
    | Reply.body body =>
      (Ret.ret (gjsonGetString env.gjsonOther body "result.0.id") none, sent ++ [req])

/-- The statements that `ClearCache` (lines 83-104), `DevelopmentMode` (lines
122-142) and `SecureLevel` (lines 161-181) share once the payload is encoded,
the same in all three up to method, URL and payload: build the request, add the
three header fields, send it, read the body and return it. -/
def sendAction (env : Env) (p : Params) (method url payload : String)
    (sent : List Request) : Ret × List Request :=
  match env.newRequest method url with
  | some err => (Ret.ret "" (some err), sent)
  | none =>
    let req : Request := ⟨method, url, authHeader p, some payload⟩
    match env.roundTrip sent req with
    | Reply.doErr err => (Ret.ret "" (some err), sent ++ [req])
    | Reply.readErr err => (Ret.ret "" (some err), sent ++ [req])
    | Reply.body body => (Ret.ret body none, sent ++ [req])

/-- The method `(p *Params) ClearCache(deomain)`. -/
def ClearCache (env : Env) (p : Params) (deomain : String) (sent : List Request) :
    Ret × List Request :=
  match GetZoneId env p deomain sent with
  | (Ret.fatal msg, sent1) => (Ret.fatal msg, sent1)
  | (Ret.ret _ (some err), sent1) => (Ret.ret "" (some err), sent1)
  | (Ret.ret zoneId none, sent1) =>
    match jsonMarshalBoolMap [("purge_everything", true)] with
    | Except.error err => (Ret.fatal ("Error marshalling payload: " ++ err), sent1)
    | Except.ok payloadBytes =>
      sendAction env p "POST" (ApiUrl ++ "/zones/" ++ zoneId ++ "/purge_cache")
        payloadBytes sent1

/-- The method `(p *Params) DevelopmentMode(domain, enable)`. -/
def DevelopmentMode (env : Env) (p : Params) (domain : String) (enable : GoString)
    (sent : List Request) : Ret × List Request :=
  match GetZoneId env p domain sent with
  | (Ret.fatal msg, sent1) => (Ret.fatal msg, sent1)
  | (Ret.ret _ (some err), sent1) => (Ret.ret "" (some err), sent1)
  | (Ret.ret zoneId none, sent1) =>
    match jsonMarshalStringMap [("value", enable)] with
    | Except.error err => (Ret.ret "" (some err), sent1)
    | Except.ok payloadBytes =>
      sendAction env p "PATCH"
        (ApiUrl ++ "/zones/" ++ zoneId ++ "/settings/development_mode") payloadBytes sent1

/-- The method `(p *Params) SecureLevel(domain, level)`.  A failed zone lookup
reaches `log.Fatalf`, so the `return "", err` written after it never runs. -/
def SecureLevel (env : Env) (p : Params) (domain : String) (level : GoString)
    (sent : List Request) : Ret × List Request :=
  match GetZoneId env p domain sent with
  | (Ret.fatal msg, sent1) => (Ret.fatal msg, sent1)
  | (Ret.ret _ (some err), sent1) => (Ret.fatal ("Error getting zone id: " ++ err), sent1)
  | (Ret.ret zoneId none, sent1) =>
    match jsonMarshalStringMap [("value", level)] with
    | Except.error err => (Ret.fatal ("Error marshalling payload: " ++ err), sent1)
    | Except.ok payloadBytes =>
      sendAction env p "PATCH"
        (ApiUrl ++ "/zones/" ++ zoneId ++ "/settings/security_level") payloadBytes sent1

/-! ## The entry point -/

/-- The command-line flags after `flag.Parse()`.  The mode is a Go string
because its bytes reach `json.Marshal`. -/
structure Flags where
  email : String
  key : String
  domain : String
  cache : Bool
  dev : GoString
  secureLevel : String
deriving DecidableEq, Repr

/-- What the process writes. -/
inductive Output where
  | stdout (line : String)
  | log (line : String)
  | usage
deriving DecidableEq, Repr

/-- A method call made by `main`, with its receiver and arguments. -/
inductive Call where
  | ClearCache (p : Params) (domain : String)
  | SecureLevel (p : Params) (domain : String) (level : GoString)
  | DevelopmentMode (p : Params) (domain : String) (enable : GoString)
deriving DecidableEq, Repr

/-- One run of the process: the method calls made by `main`, the requests
handed to `httpClient.Do`, the output, and the exit status. -/
structure Run where
  calls : List Call
  sent : List Request
  out : List Output
  exit : Nat
deriving DecidableEq, Repr

/-- What `main` does with the outcome of the one call it made: a `log.Fatalf`
inside the method has already ended the process with status 1; a returned error
is reported with `log.Fatalf(label, err)`, also status 1; otherwise the result
is printed and `main` runs to its end. -/
def conclude (call : Call) (label : String) (print : String → Output)
    (r : Ret × List Request) : Run :=
  match r.1 with
  | Ret.fatal msg => ⟨[call], r.2, [Output.log msg], 1⟩
  | Ret.ret _ (some err) => ⟨[call], r.2, [Output.log (label ++ err)], 1⟩
  | Ret.ret result none => ⟨[call], r.2, [print result], 0⟩

/-- One arm of the `switch` on the security level: call `SecureLevel` with the
provider token and report as `main` does. -/
def secureLevelArm (env : Env) (params : Params) (domain : String) (token : GoString) :
    Run :=
  conclude (Call.SecureLevel params domain token) "Error setting security level: "
    Output.log (SecureLevel env params domain token [])

/-- The function `main`, after `flag.Parse()` has filled the flags. -/
def main (env : Env) (flags : Flags) : Run :=
  let email := if flags.email = "" then env.getenv "CF_EMAIL" else flags.email
  let key := if flags.key = "" then env.getenv "CF_KEY" else flags.key
  let domain := if flags.domain = "" then env.getenv "CF_DOMAIN" else flags.domain
  let params : Params := ⟨email, key⟩
  if flags.cache = false ∧ flags.dev = "" ∧ flags.secureLevel = "" then
    ⟨[], [], [Output.stdout "No actions specified. Available options:", Output.usage], 0⟩
  else if flags.cache = true then
    conclude (Call.ClearCache params domain) "Error clearing cache: " Output.log
      (ClearCache env params domain [])
  else if flags.secureLevel ≠ "" then
    if flags.secureLevel = "attack" then secureLevelArm env params domain "under_attack"
    else if flags.secureLevel = "high" then secureLevelArm env params domain "high"
    else if flags.secureLevel = "medium" then secureLevelArm env params domain "medium"
    else if flags.secureLevel = "low" then secureLevelArm env params domain "low"
    else
      ⟨[], [],
        [Output.log
          "Invalid security level specified. Available options: attack/high/medium/low"],
        0⟩
  else if flags.dev ≠ "" then
    conclude (Call.DevelopmentMode params domain flags.dev)
      "Error setting development mode: " Output.stdout
      (DevelopmentMode env params domain flags.dev [])
  else ⟨[], [], [], 0⟩

/-- Receiver of a call. -/
def Call.params : Call → Params
  | Call.ClearCache p _ => p
  | Call.SecureLevel p _ _ => p
  | Call.DevelopmentMode p _ _ => p

/-- Domain argument of a call. -/
def Call.domain : Call → String
  | Call.ClearCache _ d => d
  | Call.SecureLevel _ d _ => d
  | Call.DevelopmentMode _ d _ => d

/-- The credentials `main` puts into `params`. -/
def mainParams (env : Env) (flags : Flags) : Params :=
  ⟨if flags.email = "" then env.getenv "CF_EMAIL" else flags.email,
    if flags.key = "" then env.getenv "CF_KEY" else flags.key⟩

/-- The value of `*domain` when `main` selects the action. -/
def mainDomain (env : Env) (flags : Flags) : String :=
  if flags.domain = "" then env.getenv "CF_DOMAIN" else flags.domain

/-! ## Concrete worlds -/

/-- Whether a URL holds an ASCII control character.  `http.NewRequest` parses
its URL with `url.Parse`, which rejects every such URL ("net/url: invalid
control character in URL"). -/
def hasCtl (url : String) : Bool :=
  url.data.any (fun c => c.toNat < 0x20 || c.toNat == 0x7f)

/-- A concrete world: URLs are checked for control characters as `url.Parse`
does, the first request of the process is answered with `lookup` and every later
one with `action`, and the process environment is `vars`. -/
def sampleEnv (vars : String → String) (lookup action : Reply) : Env where
  newRequest := fun _ url =>
    if hasCtl url then some "net/url: invalid control character in URL" else none
  roundTrip := fun sent _ => if sent = [] then lookup else action
  gjsonOther := fun _ _ => ""
  getenv := vars

/-- No environment variable is set. -/
def noVars : String → String := fun _ => ""

/-- Process environment with the three variables set. -/
def sampleVars : String → String := fun name =>
  if name = "CF_EMAIL" then "env@example.com"
  else if name = "CF_KEY" then "envkey"
  else if name = "CF_DOMAIN" then "env.example.com"
  else ""

/-- Sample credentials. -/
def sampleParams : Params := ⟨"ops@example.com", "s3cr3t"⟩

/-- A zone listing with one zone, `abc123`. -/
def oneZone : Reply := Reply.body "\x7b\"result\":[\x7b\"id\":\"abc123\"\x7d]\x7d"

/-- A zone listing whose one zone id holds a line feed (written `\n` in the
JSON text). -/
def oddZone : Reply := Reply.body "\x7b\"result\":[\x7b\"id\":\"abc\\n123\"\x7d]\x7d"

/-- A mode whose bytes are not well-formed UTF-8: `o`, the byte `ff`, `n`. -/
def brokenMode : GoString := ⟨[0x6f, 0xff, 0x6e]⟩

/-- A listing with two zones, written with whitespace, more keys than `result`
and `id`, and escapes in a name. -/
def sampleListing : String :=
  "\x7b \"success\": true, \"result\": [ \x7b\"name\": \"caf\\u00e9 \\ud83d\\ude00\", \"id\": \"zid-1\"\x7d, \x7b\"id\": \"zid-2\"\x7d ], \"errors\": [], \"count\": 2 \x7d"

/-! ## Properties

### The reader reads every JSON text -/

/-- Whitespace in the sense of the grammar is whitespace for the reader. -/
theorem isWs_of_blank (c : Char) (h : c = ' ' ∨ c = '\n' ∨ c = '\r' ∨ c = '\t') :
    isWs c = true := by
  rcases h with h | h | h | h <;> subst h <;> decide

/-- Leading whitespace is skipped. -/
theorem skipWs_blank (w x : List Char) (h : Blank w) : skipWs (w ++ x) = skipWs x := by
  induction w with
  | nil => rfl
  | cons c w ih =>
    have hc : isWs c = true := isWs_of_blank c (h c (List.mem_cons_self c w))
    have hw : Blank w := fun d hd => h d (List.mem_cons_of_mem c hd)
    simp only [List.cons_append, skipWs, hc, if_true]
    exact ih hw

/-- Nothing is skipped in front of a character that is not whitespace. -/
theorem skipWs_cons (c : Char) (x : List Char) (h : isWs c = false) :
    skipWs (c :: x) = c :: x := by
  simp only [skipWs, h, Bool.false_eq_true, if_false]

/-- Whitespace followed by a character that is not whitespace. -/
theorem skipWs_blank_cons (w : List Char) (c : Char) (x : List Char) (h : Blank w)
    (hc : isWs c = false) : skipWs (w ++ c :: x) = c :: x := by
  rw [skipWs_blank w _ h, skipWs_cons c x hc]

/-- The reader's value of a hexadecimal digit is the one of the table. -/
theorem hexVal_of_mem (c : Char) (v : Nat) (h : (c, v) ∈ hexDigits) : hexVal c = some v := by
  simp only [hexDigits, List.mem_cons, Prod.mk.injEq, List.mem_singleton, List.not_mem_nil,
    or_false] at h
  rcases h with ⟨h1, h2⟩ | ⟨h1, h2⟩ | ⟨h1, h2⟩ | ⟨h1, h2⟩ | ⟨h1, h2⟩ | ⟨h1, h2⟩ | ⟨h1, h2⟩ |
    ⟨h1, h2⟩ | ⟨h1, h2⟩ | ⟨h1, h2⟩ | ⟨h1, h2⟩ | ⟨h1, h2⟩ | ⟨h1, h2⟩ | ⟨h1, h2⟩ | ⟨h1, h2⟩ |
    ⟨h1, h2⟩ | ⟨h1, h2⟩ | ⟨h1, h2⟩ | ⟨h1, h2⟩ | ⟨h1, h2⟩ | ⟨h1, h2⟩ | ⟨h1, h2⟩ <;>
  subst h1 <;> subst h2 <;> decide

/-- A digit the reader gives a value is a hexadecimal digit of the table. -/
theorem hexVal_sound (c : Char) (v : Nat) (h : hexVal c = some v) : (c, v) ∈ hexDigits := by
  have hc : c = Char.ofNat c.toNat := (Char.ofNat_toNat c).symm
  unfold hexVal at h
  generalize c.toNat = k at h hc
  subst hc
  split_ifs at h with h1 h2 h3
  · obtain ⟨h1a, h1b⟩ := h1
    have hv := Option.some.inj h
    subst hv
    interval_cases k <;> decide
  · obtain ⟨h2a, h2b⟩ := h2
    have hv := Option.some.inj h
    subst hv
    interval_cases k <;> decide
  · obtain ⟨h3a, h3b⟩ := h3
    have hv := Option.some.inj h
    subst hv
    interval_cases k <;> decide

/-- Four digits the reader gives a value are hexadecimal digits writing it. -/
theorem hex4_sound (a b c d : Char) (n : Nat) (h : hex4 a b c d = some n) :
    HexQuad a b c d n := by
  unfold hex4 at h
  cases ha : hexVal a with
  | none => simp [ha] at h
  | some x =>
    cases hb : hexVal b with
    | none => simp [ha, hb] at h
    | some y =>
      cases hc : hexVal c with
      | none => simp [ha, hb, hc] at h
      | some z =>
        cases hd : hexVal d with
        | none => simp [ha, hb, hc, hd] at h
        | some w =>
          simp only [ha, hb, hc, hd, Option.some.injEq] at h
          exact ⟨x, y, z, w, hexVal_sound a x ha, hexVal_sound b y hb, hexVal_sound c z hc,
            hexVal_sound d w hd, h.symm⟩

/-- The reader's value of four hexadecimal digits. -/
theorem hex4_of_quad (a b c d : Char) (n : Nat) (h : HexQuad a b c d n) :
    hex4 a b c d = some n := by
  obtain ⟨x, y, z, w, ha, hb, hc, hd, hn⟩ := h
  simp only [hex4, hexVal_of_mem a x ha, hexVal_of_mem b y hb, hexVal_of_mem c z hc,
    hexVal_of_mem d w hd, hn]

/-- The reader decodes the one-letter escapes of the table; none is `u`. -/
theorem simpleEscape_of_mem (e x : Char) (h : (e, x) ∈ escapeLetters) :
    simpleEscape e = some x ∧ (e == 'u') = false := by
  simp only [escapeLetters, List.mem_cons, Prod.mk.injEq, List.mem_singleton,
    List.not_mem_nil, or_false] at h
  rcases h with ⟨h1, h2⟩ | ⟨h1, h2⟩ | ⟨h1, h2⟩ | ⟨h1, h2⟩ | ⟨h1, h2⟩ | ⟨h1, h2⟩ | ⟨h1, h2⟩ |
    ⟨h1, h2⟩ <;>
  subst h1 <;> subst h2 <;> decide

/-- The characters of an escape are passed over. -/
theorem parseString_skip (pre x : List Char) :
    parseString pre.length (pre ++ x) = parseString 0 x := by
  induction pre with
  | nil => rfl
  | cons c pre ih => simpa [parseString] using ih

/-- The closing quote ends the literal. -/
theorem parseString_closing (rest : List Char) :
    parseString 0 ('"' :: rest) = some ([], rest) := by
  rw [parseString]
  rfl

/-- An ordinary character is copied. -/
theorem parseString_plain (c : Char) (tail : List Char) (h1 : c ≠ '"') (h2 : c ≠ '\\')
    (h3 : ¬ c.toNat < 0x20) :
    parseString 0 (c :: tail) = consChar c (parseString 0 tail) := by
  rw [parseString]
  have e1 : (c == '"') = false := by simpa using h1
  have e2 : (c == '\\') = false := by simpa using h2
  simp only [e1, e2, h3, if_false, Bool.false_eq_true]

/-- An escape is decoded and its characters are passed over. -/
theorem parseString_escape (esc tail : List Char) (x : Char)
    (h : readEscape (esc ++ tail) = some (x, esc.length)) :
    parseString 0 ('\\' :: (esc ++ tail)) = consChar x (parseString 0 tail) := by
  rw [parseString]
  have e1 : ('\\' == '"') = false := by decide
  have e2 : ('\\' == '\\') = true := by decide
  simp only [e1, e2, if_true, if_false, Bool.false_eq_true, h, parseString_skip]

/-- A one-letter escape. -/
theorem readEscape_letter (e x : Char) (tail : List Char) (h : (e, x) ∈ escapeLetters) :
    readEscape ([e] ++ tail) = some (x, [e].length) := by
  obtain ⟨h1, h2⟩ := simpleEscape_of_mem e x h
  simp only [readEscape, List.singleton_append, h1, h2, Bool.false_eq_true, if_false,
    List.length_singleton]

/-- A `\u` escape outside the surrogate range. -/
theorem readEscape_unicode (a b c d : Char) (n : Nat) (tail : List Char)
    (h : HexQuad a b c d n) (hn : n < 0xD800 ∨ 0xDFFF < n) :
    readEscape (['u', a, b, c, d] ++ tail) = some (Char.ofNat n, ['u', a, b, c, d].length) := by
  have e0 : ('u' == 'u') = true := by decide
  have e1 : ¬ (0xD800 ≤ n ∧ n ≤ 0xDBFF) := by omega
  have e2 : ¬ (0xDC00 ≤ n ∧ n ≤ 0xDFFF) := by omega
  simp only [readEscape, List.cons_append, List.nil_append, e0, if_true, hex4_of_quad a b c d n h,
    e1, e2, if_false, List.length_cons, List.length_nil]

/-- The reader sees the escape of a low surrogate. -/
theorem lowAfter_low (a b c d : Char) (lo : Nat) (tail : List Char)
    (h : HexQuad a b c d lo) (hlo : 0xDC00 ≤ lo ∧ lo ≤ 0xDFFF) :
    lowAfter ('\\' :: 'u' :: a :: b :: c :: d :: tail) = some lo := by
  have e0 : ('u' == 'u') = true := by decide
  have e1 : ('\\' == '\\') = true := by decide
  simp only [lowAfter, e0, e1, Bool.and_self, if_true, hex4_of_quad a b c d lo h, hlo, and_self]

/-- Where the reader sees the escape of a low surrogate, the input starts with
one. -/
theorem lowAfter_sound (cs : List Char) (lo : Nat) (h : lowAfter cs = some lo) :
    ∃ a b c d rest, cs = '\\' :: 'u' :: a :: b :: c :: d :: rest ∧ HexQuad a b c d lo ∧
      0xDC00 ≤ lo ∧ lo ≤ 0xDFFF := by
  unfold lowAfter at h
  split at h
  next b u l1 l2 l3 l4 rest =>
    split_ifs at h with hbu
    · simp only [Bool.and_eq_true, beq_iff_eq] at hbu
      obtain ⟨hb, hu⟩ := hbu
      subst hb hu
      cases hq : hex4 l1 l2 l3 l4 with
      | none => simp [hq] at h
      | some m =>
        simp only [hq] at h
        split_ifs at h with hm
        have hml := Option.some.inj h
        subst hml
        exact ⟨l1, l2, l3, l4, rest, rfl, hex4_sound l1 l2 l3 l4 m hq, hm.1, hm.2⟩
  next => simp at h

/-- Behind a string literal that does not start with the escape of a low
surrogate the reader sees none either. -/
theorem lowAfter_none (s t rest : List Char) (h : StrText s t) (hn : ¬ StartsWithLow t) :
    lowAfter (t ++ '"' :: rest) = none := by
  cases hl : lowAfter (t ++ '"' :: rest) with
  | none => rfl
  | some lo =>
    exfalso
    obtain ⟨a, b, c, d, tl, hcs, hq, hlo⟩ := lowAfter_sound _ lo hl
    cases h with
    | done =>
      simp only [List.nil_append, List.cons.injEq] at hcs
      exact absurd hcs.1 (by decide)
    | plain c0 s0 t0 h1 h2 h3 h0 =>
      simp only [List.cons_append, List.cons.injEq] at hcs
      exact h2 hcs.1
    | letter e x s0 t0 hm h0 =>
      simp only [List.cons_append, List.cons.injEq] at hcs
      have := (simpleEscape_of_mem e x hm).2
      rw [hcs.2.1] at this
      exact absurd this (by decide)
    | unicode a0 b0 c0 d0 n s0 t0 hq0 hn0 h0 =>
      simp only [List.cons_append, List.cons.injEq] at hcs
      obtain ⟨_, _, ha, hb, hc, hd, _⟩ := hcs
      subst ha hb hc hd
      exact hn ⟨_, _, _, _, lo, t0, rfl, hq, hlo⟩
    | pair a0 b0 c0 d0 a2 b2 c2 d2 hi lo2 s0 t0 hq1 hq2 hhi hlo2 h0 =>
      simp only [List.cons_append, List.cons.injEq] at hcs
      obtain ⟨_, _, ha, hb, hc, hd, _⟩ := hcs
      subst ha hb hc hd
      exact hn ⟨_, _, _, _, lo, _, rfl, hq, hlo⟩
    | lone a0 b0 c0 d0 n s0 t0 hq0 hr hp h0 =>
      simp only [List.cons_append, List.cons.injEq] at hcs
      obtain ⟨_, _, ha, hb, hc, hd, _⟩ := hcs
      subst ha hb hc hd
      exact hn ⟨_, _, _, _, lo, t0, rfl, hq, hlo⟩

/-- A surrogate pair. -/
theorem readEscape_pair (a b c d a2 b2 c2 d2 : Char) (hi lo : Nat) (tail : List Char)
    (h1 : HexQuad a b c d hi) (h2 : HexQuad a2 b2 c2 d2 lo)
    (hhi : 0xD800 ≤ hi ∧ hi ≤ 0xDBFF) (hlo : 0xDC00 ≤ lo ∧ lo ≤ 0xDFFF) :
    readEscape (['u', a, b, c, d, '\\', 'u', a2, b2, c2, d2] ++ tail) =
      some (Char.ofNat (0x10000 + (hi - 0xD800) * 0x400 + (lo - 0xDC00)),
        ['u', a, b, c, d, '\\', 'u', a2, b2, c2, d2].length) := by
  have e0 : ('u' == 'u') = true := by decide
  simp only [readEscape, List.cons_append, List.nil_append, e0, if_true,
    hex4_of_quad a b c d hi h1, hhi, and_self, lowAfter_low a2 b2 c2 d2 lo tail h2 hlo,
    List.length_cons, List.length_nil]

/-- A surrogate escape that is no part of a pair. -/
theorem readEscape_lone (a b c d : Char) (n : Nat) (tail : List Char)
    (h : HexQuad a b c d n) (hn : 0xD800 ≤ n ∧ n ≤ 0xDFFF)
    (hl : n ≤ 0xDBFF → lowAfter tail = none) :
    readEscape (['u', a, b, c, d] ++ tail) =
      some (Char.ofNat 0xFFFD, ['u', a, b, c, d].length) := by
  have e0 : ('u' == 'u') = true := by decide
  by_cases hhi : n ≤ 0xDBFF
  · have e1 : 0xD800 ≤ n ∧ n ≤ 0xDBFF := ⟨hn.1, hhi⟩
    simp only [readEscape, List.cons_append, List.nil_append, e0, if_true,
      hex4_of_quad a b c d n h, e1, and_self, hl hhi, List.length_cons, List.length_nil]
  · have e1 : ¬ (0xD800 ≤ n ∧ n ≤ 0xDBFF) := by omega
    have e2 : 0xDC00 ≤ n ∧ n ≤ 0xDFFF := by omega
    simp only [readEscape, List.cons_append, List.nil_append, e0, if_true,
      hex4_of_quad a b c d n h, e1, e2, and_self, if_false, List.length_cons, List.length_nil]

/-- The reader decodes every string literal of the grammar. -/
theorem parseString_complete (s t : List Char) (h : StrText s t) (rest : List Char) :
    parseString 0 (t ++ '"' :: rest) = some (s, rest) := by
  induction h with
  | done => exact parseString_closing rest
  | plain c s t h1 h2 h3 _ ih =>
    rw [List.cons_append, parseString_plain c _ h1 h2 (by omega), ih]
    rfl
  | letter e x s t hm _ ih =>
    have := parseString_escape [e] (t ++ '"' :: rest) x (readEscape_letter e x _ hm)
    rw [List.cons_append, List.cons_append]
    rw [List.singleton_append] at this
    rw [this, ih]
    rfl
  | unicode a b c d n s t hq hn _ ih =>
    have := parseString_escape ['u', a, b, c, d] (t ++ '"' :: rest) (Char.ofNat n)
      (readEscape_unicode a b c d n _ hq hn)
    simp only [List.cons_append, List.nil_append] at this ⊢
    rw [this, ih]
    rfl
  | pair a b c d a2 b2 c2 d2 hi lo s t hq1 hq2 hhi hlo _ ih =>
    have := parseString_escape ['u', a, b, c, d, '\\', 'u', a2, b2, c2, d2]
      (t ++ '"' :: rest) _ (readEscape_pair a b c d a2 b2 c2 d2 hi lo _ hq1 hq2 hhi hlo)
    simp only [List.cons_append, List.nil_append] at this ⊢
    rw [this, ih]
    rfl
  | lone a b c d n s t hq hn hp hs ih =>
    have := parseString_escape ['u', a, b, c, d] (t ++ '"' :: rest) (Char.ofNat 0xFFFD)
      (readEscape_lone a b c d n _ hq hn (fun hhi => lowAfter_none s t rest hs (hp hhi)))
    simp only [List.cons_append, List.nil_append] at this ⊢
    rw [this, ih]
    rfl

/-- Digits are characters of number literals. -/
theorem isNumChar_of_digit (c : Char) (h : c.isDigit = true) : isNumChar c = true := by
  simp [isNumChar, h]

/-- Every character of a number literal is a number character, and the literal
starts with a digit or a minus sign. -/
theorem NumText_chars (raw : List Char) (h : NumText raw) :
    (∀ c ∈ raw, isNumChar c = true) ∧
    ∃ c tl, raw = c :: tl ∧ (c.isDigit = true ∨ c = '-') := by
  obtain ⟨sign, int, frac, exp, hraw, hsign, hint, _, hfrac, hexp⟩ := h
  have hs : ∀ c ∈ sign, isNumChar c = true := by
    rcases hsign with h | h <;> subst h <;> simp; decide
  have hi : ∀ c ∈ int, isNumChar c = true := fun c hc => isNumChar_of_digit c (hint.2 c hc)
  have hf : ∀ c ∈ frac, isNumChar c = true := by
    rcases hfrac with h | ⟨ds, hds, h⟩
    · subst h; simp
    · subst h
      intro c hc
      rcases List.mem_cons.mp hc with h | h
      · subst h; decide
      · exact isNumChar_of_digit c (hds.2 c h)
  have he : ∀ c ∈ exp, isNumChar c = true := by
    rcases hexp with h | ⟨e, s, ds, he, hs2, hds, h⟩
    · subst h; simp
    · subst h
      intro c hc
      rcases List.mem_cons.mp hc with h | h
      · subst h
        rcases he with h | h <;> subst h <;> decide
      · rcases List.mem_append.mp h with h | h
        · rcases hs2 with h2 | h2 | h2 <;> subst h2 <;> simp at h <;> subst h <;> decide
        · exact isNumChar_of_digit c (hds.2 c h)
  constructor
  · intro c hc
    rw [hraw] at hc
    simp only [List.mem_append] at hc
    rcases hc with ((h | h) | h) | h
    · exact hs c h
    · exact hi c h
    · exact hf c h
    · exact he c h
  · obtain ⟨hne, hdig⟩ := hint
    obtain ⟨d, ds, hd⟩ : ∃ d ds, int = d :: ds := by
      cases int with
      | nil => exact absurd rfl hne
      | cons d ds => exact ⟨d, ds, rfl⟩
    rcases hsign with h | h
    · subst h
      refine ⟨d, ds ++ frac ++ exp, ?_, Or.inl (hdig d (by rw [hd]; exact List.mem_cons_self d ds))⟩
      rw [hraw, hd]
      simp
    · subst h
      refine ⟨'-', int ++ frac ++ exp, ?_, Or.inr rfl⟩
      rw [hraw]
      simp

/-- A run of number characters followed by something else is taken whole. -/
theorem spanNum_append (raw rest : List Char) (h : ∀ c ∈ raw, isNumChar c = true)
    (hr : NoNum rest) : spanNum (raw ++ rest) = (raw, rest) := by
  induction raw with
  | nil =>
    cases rest with
    | nil => rfl
    | cons c tl =>
      have := hr c tl rfl
      simp [spanNum, this]
  | cons c raw ih =>
    have hc := h c (List.mem_cons_self c raw)
    have ih2 := ih (fun d hd => h d (List.mem_cons_of_mem c hd))
    rw [List.cons_append, spanNum]
    simp only [hc, if_true, ih2]

/-- Leading whitespace makes no difference to `parseValue`. -/
theorem parseValue_blank (n : Nat) (w x : List Char) (h : Blank w) :
    parseValue n (w ++ x) = parseValue n x := by
  cases n with
  | zero => rfl
  | succ k => rw [parseValue, parseValue, skipWs_blank w x h]

/-- Whitespace is no number character. -/
theorem isNumChar_of_blank (c : Char) (h : c = ' ' ∨ c = '\n' ∨ c = '\r' ∨ c = '\t') :
    isNumChar c = false := by
  rcases h with h | h | h | h <;> subst h <;> decide

/-- Whitespace followed by a character that is no number character does not go
on a number literal. -/
theorem NoNum_blank_cons (w : List Char) (c : Char) (x : List Char) (h : Blank w)
    (hc : isNumChar c = false) : NoNum (w ++ c :: x) := by
  intro d tl hd
  cases w with
  | nil =>
    simp only [List.nil_append, List.cons.injEq] at hd
    rw [← hd.1]
    exact hc
  | cons e w =>
    simp only [List.cons_append, List.cons.injEq] at hd
    rw [← hd.1]
    exact isNumChar_of_blank e (h e (List.mem_cons_self e w))

/-- Whitespace alone does not go on a number literal. -/
theorem NoNum_blank (w : List Char) (h : Blank w) : NoNum w := by
  intro d tl hd
  subst hd
  exact isNumChar_of_blank d (h d (List.mem_cons_self d tl))

/-- The text of a value starts with a character that is neither whitespace nor
a closing bracket. -/
theorem Text_value_head (j : Json) (t : List Char) (h : Text (Syn.value j) t) :
    ∃ c tl, t = c :: tl ∧ isWs c = false ∧ c ≠ ']' := by
  cases h with
  | null => exact ⟨_, _, rfl, by decide, by decide⟩
  | true => exact ⟨_, _, rfl, by decide, by decide⟩
  | false => exact ⟨_, _, rfl, by decide, by decide⟩
  | num raw hn =>
    obtain ⟨_, c, tl, hraw, hc⟩ := NumText_chars t hn
    refine ⟨c, tl, hraw, ?_, ?_⟩
    · rcases hc with hc | hc
      · simp only [Char.isDigit, Bool.and_eq_true, decide_eq_true_eq] at hc
        have h1 : c ≠ ' ' := by rintro rfl; exact absurd hc (by decide)
        have h2 : c ≠ '\n' := by rintro rfl; exact absurd hc (by decide)
        have h3 : c ≠ '\r' := by rintro rfl; exact absurd hc (by decide)
        have h4 : c ≠ '\t' := by rintro rfl; exact absurd hc (by decide)
        simp [isWs, h1, h2, h3, h4]
      · subst hc; decide
    · rcases hc with hc | hc
      · rintro rfl
        exact absurd hc (by decide)
      · subst hc; decide
  | str s t hs => exact ⟨_, _, rfl, by decide, by decide⟩
  | arrEmpty w hw => exact ⟨_, _, rfl, by decide, by decide⟩
  | arr w tv tl v vs hw hv ht => exact ⟨_, _, rfl, by decide, by decide⟩
  | objEmpty w hw => exact ⟨_, _, rfl, by decide, by decide⟩
  | obj tm tl m ms hm ht => exact ⟨_, _, rfl, by decide, by decide⟩

/-- The rest of an array after an element does not go on a number literal. -/
theorem Text_items_NoNum (vs : List Json) (t rest : List Char) (h : Text (Syn.items vs) t) :
    NoNum (t ++ rest) := by
  cases h with
  | itemsEnd w hw =>
    rw [List.append_assoc]
    exact NoNum_blank_cons w ']' _ hw (by decide)
  | itemsMore w1 w2 tv tl v vs hw1 hw2 hv ht =>
    rw [List.append_assoc]
    exact NoNum_blank_cons w1 ',' _ hw1 (by decide)

/-- The rest of an object after a member does not go on a number literal. -/
theorem Text_members_NoNum (ms : List (String × Json)) (t rest : List Char)
    (h : Text (Syn.members ms) t) : NoNum (t ++ rest) := by
  cases h with
  | membersEnd w hw =>
    rw [List.append_assoc]
    exact NoNum_blank_cons w '\x7d' _ hw (by decide)
  | membersMore w tm tl m ms hw hm ht =>
    rw [List.append_assoc]
    exact NoNum_blank_cons w ',' _ hw (by decide)

/-- A positive bound is a successor. -/
theorem exists_succ_of_lt (a n : Nat) (h : a < n) : ∃ k, n = k + 1 :=
  ⟨n - 1, by omega⟩

/-- The reader reads every text of the grammar as what it stands for. -/
theorem Text_reads (x : Syn) (t : List Char) (h : Text x t) : Reads x t := by
  induction h with
  | null =>
    simp only [Reads]
    intro n rest hn _
    obtain ⟨k, rfl⟩ := exists_succ_of_lt _ n hn
    rfl
  | true =>
    simp only [Reads]
    intro n rest hn _
    obtain ⟨k, rfl⟩ := exists_succ_of_lt _ n hn
    rfl
  | false =>
    simp only [Reads]
    intro n rest hn _
    obtain ⟨k, rfl⟩ := exists_succ_of_lt _ n hn
    rfl
  | num raw hnum =>
    simp only [Reads]
    intro n rest hn hr
    obtain ⟨k, rfl⟩ := exists_succ_of_lt _ n hn
    obtain ⟨hall, c, tl, hraw, hc⟩ := NumText_chars raw hnum
    obtain ⟨c2, tl2, hraw2, hws, _⟩ := Text_value_head _ _ (Text.num raw hnum)
    have hspan := spanNum_append raw rest hall hr
    rw [hraw] at hspan ⊢
    rw [List.cons_append] at hspan ⊢
    rw [hraw] at hraw2
    obtain ⟨rfl, rfl⟩ := List.cons.inj hraw2
    have e1 : (c == '"') = false := by
      rcases hc with hc | hc
      · simp only [beq_eq_false_iff_ne]; rintro rfl; exact absurd hc (by decide)
      · subst hc; decide
    have e2 : (c == '[') = false := by
      rcases hc with hc | hc
      · simp only [beq_eq_false_iff_ne]; rintro rfl; exact absurd hc (by decide)
      · subst hc; decide
    have e3 : (c == '\x7b') = false := by
      rcases hc with hc | hc
      · simp only [beq_eq_false_iff_ne]; rintro rfl; exact absurd hc (by decide)
      · subst hc; decide
    have e4 : (c == 't') = false := by
      rcases hc with hc | hc
      · simp only [beq_eq_false_iff_ne]; rintro rfl; exact absurd hc (by decide)
      · subst hc; decide
    have e5 : (c == 'f') = false := by
      rcases hc with hc | hc
      · simp only [beq_eq_false_iff_ne]; rintro rfl; exact absurd hc (by decide)
      · subst hc; decide
    have e6 : (c == 'n') = false := by
      rcases hc with hc | hc
      · simp only [beq_eq_false_iff_ne]; rintro rfl; exact absurd hc (by decide)
      · subst hc; decide
    have e7 : (c.isDigit || c == '-') = true := by
      rcases hc with hc | hc
      · simp [hc]
      · subst hc; decide
    rw [parseValue, skipWs_cons c _ hws]
    simp only [e1, e2, e3, e4, e5, e6, e7, if_true, if_false, Bool.false_eq_true, hspan]
  | str s t hs =>
    simp only [Reads]
    intro n rest hn _
    obtain ⟨k, rfl⟩ := exists_succ_of_lt _ n hn
    rw [List.cons_append, List.append_assoc, List.singleton_append, parseValue,
      skipWs_cons '"' _ (by decide)]
    simp only [beq_self_eq_true, if_true, parseString_complete s t hs rest]
  | arrEmpty w hw =>
    simp only [Reads]
    intro n rest hn _
    obtain ⟨k, rfl⟩ := exists_succ_of_lt _ n hn
    rw [List.cons_append, List.append_assoc, List.singleton_append, parseValue,
      skipWs_cons '[' _ (by decide)]
    have e1 : ('[' == '"') = false := by decide
    simp only [e1, beq_self_eq_true, if_true, if_false, Bool.false_eq_true,
      skipWs_blank_cons w ']' rest hw (by decide), List.head?_cons, List.tail_cons]
  | arr w tv tl v vs hw hv ht ihv iht =>
    simp only [Reads] at ihv iht ⊢
    intro n rest hn hr
    obtain ⟨k, rfl⟩ := exists_succ_of_lt _ n hn
    obtain ⟨c, tl0, htv, hws, hne⟩ := Text_value_head v tv hv
    simp only [List.length_cons, List.length_append] at hn
    have hval : parseValue k (w ++ (tv ++ (tl ++ rest))) = some (v, tl ++ rest) := by
      rw [parseValue_blank k w _ hw]
      exact ihv k (tl ++ rest) (by omega) (Text_items_NoNum vs tl rest ht)
    have htail : parseArrayTail (parseValue k) k (tl ++ rest) = some (vs, rest) :=
      iht k k rest (by omega) (by omega)
    have hhead : (skipWs (w ++ (tv ++ (tl ++ rest)))).head? ≠ some ']' := by
      rw [skipWs_blank w _ hw, htv, List.cons_append, skipWs_cons c _ hws, List.head?_cons]
      intro h
      exact hne (Option.some.inj h)
    rw [List.cons_append, List.append_assoc, List.append_assoc, parseValue,
      skipWs_cons '[' _ (by decide)]
    have e1 : ('[' == '"') = false := by decide
    simp only [e1, beq_self_eq_true, if_true, if_false, Bool.false_eq_true, hhead, hval, htail]
  | itemsEnd w hw =>
    simp only [Reads]
    intro n m rest hn _
    simp only [List.length_append, List.length_singleton] at hn
    obtain ⟨k, rfl⟩ := exists_succ_of_lt w.length n (by omega)
    rw [List.append_assoc, List.singleton_append, parseArrayTail,
      skipWs_blank_cons w ']' rest hw (by decide)]
    rfl
  | itemsMore w1 w2 tv tl v vs hw1 hw2 hv ht ihv iht =>
    simp only [Reads] at ihv iht ⊢
    intro n m rest hn hm
    simp only [List.length_cons, List.length_append] at hn hm
    obtain ⟨k, rfl⟩ := exists_succ_of_lt w1.length n (by omega)
    have hval : parseValue m (w2 ++ (tv ++ (tl ++ rest))) = some (v, tl ++ rest) := by
      rw [parseValue_blank m w2 _ hw2]
      exact ihv m (tl ++ rest) (by omega) (Text_items_NoNum vs tl rest ht)
    have htail : parseArrayTail (parseValue m) k (tl ++ rest) = some (vs, rest) :=
      iht k m rest (by omega) (by omega)
    rw [List.append_assoc, List.cons_append, List.append_assoc, List.append_assoc,
      parseArrayTail, skipWs_blank_cons w1 ',' _ hw1 (by decide)]
    simp only [hval, htail]
  | objEmpty w hw =>
    simp only [Reads]
    intro n rest hn _
    obtain ⟨k, rfl⟩ := exists_succ_of_lt _ n hn
    rw [List.cons_append, List.append_assoc, List.singleton_append, parseValue,
      skipWs_cons '\x7b' _ (by decide)]
    have e1 : ('\x7b' == '"') = false := by decide
    have e2 : ('\x7b' == '[') = false := by decide
    simp only [e1, e2, beq_self_eq_true, if_true, if_false, Bool.false_eq_true,
      skipWs_blank_cons w '\x7d' rest hw (by decide), List.head?_cons, List.tail_cons]
  | obj tm tl m ms hm ht ihm iht =>
    simp only [Reads] at ihm iht ⊢
    intro n rest hn hr
    obtain ⟨k, rfl⟩ := exists_succ_of_lt _ n hn
    simp only [List.length_cons, List.length_append] at hn
    have hmem : parseMember (parseValue k) (tm ++ (tl ++ rest)) = some (m, tl ++ rest) :=
      ihm k (tl ++ rest) (by omega) (Text_members_NoNum ms tl rest ht)
    have htail : parseObjectTail (parseValue k) k (tl ++ rest) = some (ms, rest) :=
      iht k k rest (by omega) (by omega)
    have hhead : (skipWs (tm ++ (tl ++ rest))).head? ≠ some '\x7d' := by
      cases hm with
      | member w1 w2 w3 key tk tv v hw1 hw2 hw3 hk hv =>
        simp only [List.append_assoc, List.cons_append]
        rw [skipWs_blank_cons w1 '"' _ hw1 (by decide), List.head?_cons]
        decide
    rw [List.cons_append, List.append_assoc, parseValue, skipWs_cons '\x7b' _ (by decide)]
    have e1 : ('\x7b' == '"') = false := by decide
    have e2 : ('\x7b' == '[') = false := by decide
    simp only [e1, e2, beq_self_eq_true, if_true, if_false, Bool.false_eq_true, hhead, hmem,
      htail]
  | member w1 w2 w3 key tk tv v hw1 hw2 hw3 hk hv ihv =>
    simp only [Reads] at ihv ⊢
    intro m rest hm hr
    simp only [List.length_cons, List.length_append] at hm
    have hval : parseValue m (w3 ++ (tv ++ rest)) = some (v, rest) := by
      rw [parseValue_blank m w3 _ hw3]
      exact ihv m rest (by omega) hr
    simp only [List.append_assoc, List.cons_append]
    rw [parseMember, skipWs_blank_cons w1 '"' _ hw1 (by decide)]
    simp only [parseString_complete key tk hk, skipWs_blank_cons w2 ':' _ hw2 (by decide), hval]
  | membersEnd w hw =>
    simp only [Reads]
    intro n m rest hn _
    simp only [List.length_append, List.length_singleton] at hn
    obtain ⟨k, rfl⟩ := exists_succ_of_lt w.length n (by omega)
    rw [List.append_assoc, List.singleton_append, parseObjectTail,
      skipWs_blank_cons w '\x7d' rest hw (by decide)]
    rfl
  | membersMore w tm tl mb ms hw hm ht ihm iht =>
    simp only [Reads] at ihm iht ⊢
    intro n m rest hn hm2
    simp only [List.length_cons, List.length_append] at hn hm2
    obtain ⟨k, rfl⟩ := exists_succ_of_lt w.length n (by omega)
    have hmem : parseMember (parseValue m) (tm ++ (tl ++ rest)) = some (mb, tl ++ rest) :=
      ihm m (tl ++ rest) (by omega) (Text_members_NoNum ms tl rest ht)
    have htail : parseObjectTail (parseValue m) k (tl ++ rest) = some (ms, rest) :=
      iht k m rest (by omega) (by omega)
    rw [List.append_assoc, List.cons_append, List.append_assoc, parseObjectTail,
      skipWs_blank_cons w ',' _ hw (by decide)]
    simp only [hmem, htail]

/-- The reader reads every JSON text as the value it stands for. -/
theorem parseJson_complete (doc : Json) (text : String) (h : JsonText doc text.data) :
    parseJson text = some doc := by
  obtain ⟨w1, t, w2, hw1, hw2, ht, htext⟩ := h
  have hr := Text_reads _ _ ht
  simp only [Reads] at hr
  have hlen : t.length < text.length + 1 := by
    rw [String.length, htext]
    simp only [List.length_append]
    omega
  have hv : parseValue (text.length + 1) text.data = some (doc, w2) := by
    rw [htext, parseValue_blank _ w1 _ hw1]
    exact hr _ w2 hlen (NoNum_blank w2 hw2)
  have hend : skipWs w2 = [] := by
    have := skipWs_blank w2 [] hw2
    rwa [List.append_nil] at this
  simp only [parseJson, hv, hend, if_true]

/-- A text is a JSON text for at most one value. -/
theorem JsonText_unique (doc1 doc2 : Json) (text : String) (h1 : JsonText doc1 text.data)
    (h2 : JsonText doc2 text.data) : doc1 = doc2 := by
  have e1 := parseJson_complete doc1 text h1
  have e2 := parseJson_complete doc2 text h2
  rw [e1] at e2
  exact Option.some.inj e2

/-- A text without quotes, backslashes and control characters is its own string
literal. -/
theorem StrText_plain (s : List Char)
    (h : ∀ c ∈ s, c ≠ '"' ∧ c ≠ '\\' ∧ 0x20 ≤ c.toNat) : StrText s s := by
  induction s with
  | nil => exact StrText.done
  | cons c s ih =>
    obtain ⟨h1, h2, h3⟩ := h c (List.mem_cons_self c s)
    exact StrText.plain c s s h1 h2 h3 (ih (fun d hd => h d (List.mem_cons_of_mem c hd)))

/-- The empty run of whitespace. -/
theorem Blank_nil : Blank [] := by
  intro c hc
  simp at hc

/-- One space. -/
theorem Blank_space : Blank [' '] := by
  intro c hc
  simp only [List.mem_singleton] at hc
  exact Or.inl hc

/-- A single digit is a number literal. -/
theorem NumText_digit (d : Char) (h : d.isDigit = true) : NumText [d] := by
  refine ⟨[], [d], [], [], by simp, Or.inl rfl, ⟨by simp, ?_⟩, ?_, Or.inl rfl, Or.inl rfl⟩
  · intro c hc
    simp only [List.mem_singleton] at hc
    rw [hc]
    exact h
  · by_cases h0 : d = '0'
    · left; rw [h0]
    · right
      simp only [List.head?_cons, ne_eq, Option.some.injEq]
      exact h0

/-- The listing `sampleListing` is a JSON text. -/
theorem sampleListing_text :
    JsonText
      (Json.obj
        [("success", Json.bool true),
         ("result",
           Json.arr
             [Json.obj [("name", Json.str "café 😀"), ("id", Json.str "zid-1")],
              Json.obj [("id", Json.str "zid-2")]]),
         ("errors", Json.arr []),
         ("count", Json.num ['2'])])
      sampleListing.data :=
  ⟨[], _, [], Blank_nil, Blank_nil,
    Text.obj _ _ _ _
      (Text.member [' '] [] [' '] _ _ _ _ Blank_space Blank_nil Blank_space
        (StrText_plain "success".data (by decide)) Text.true)
      (Text.membersMore [] _ _ _ _ Blank_nil
        (Text.member [' '] [] [' '] _ _ _ _ Blank_space Blank_nil Blank_space
          (StrText_plain "result".data (by decide))
          (Text.arr [' '] _ _ _ _ Blank_space
            (Text.obj _ _ _ _
              (Text.member [] [] [' '] _ _ _ _ Blank_nil Blank_nil Blank_space
                (StrText_plain "name".data (by decide))
                (Text.str _ _
                  (StrText.plain 'c' _ _ (by decide) (by decide) (by decide)
                    (StrText.plain 'a' _ _ (by decide) (by decide) (by decide)
                      (StrText.plain 'f' _ _ (by decide) (by decide) (by decide)
                        (StrText.unicode '0' '0' 'e' '9' 0xe9 _ _
                          ⟨0, 0, 14, 9, by decide, by decide, by decide, by decide, rfl⟩
                          (Or.inl (by decide))
                          (StrText.plain ' ' _ _ (by decide) (by decide) (by decide)
                            (StrText.pair 'd' '8' '3' 'd' 'd' 'e' '0' '0' 0xd83d 0xde00 _ _
                              ⟨13, 8, 3, 13, by decide, by decide, by decide, by decide, rfl⟩
                              ⟨13, 14, 0, 0, by decide, by decide, by decide, by decide, rfl⟩
                              (by decide) (by decide) StrText.done))))))))
              (Text.membersMore [] _ _ _ _ Blank_nil
                (Text.member [' '] [] [' '] _ _ _ _ Blank_space Blank_nil Blank_space
                  (StrText_plain "id".data (by decide))
                  (Text.str _ _ (StrText_plain "zid-1".data (by decide))))
                (Text.membersEnd [] Blank_nil)))
            (Text.itemsMore [] [' '] _ _ _ _ Blank_nil Blank_space
              (Text.obj _ _ _ _
                (Text.member [] [] [' '] _ _ _ _ Blank_nil Blank_nil Blank_space
                  (StrText_plain "id".data (by decide))
                  (Text.str _ _ (StrText_plain "zid-2".data (by decide))))
                (Text.membersEnd [] Blank_nil))
              (Text.itemsEnd [' '] Blank_space))))
        (Text.membersMore [] _ _ _ _ Blank_nil
          (Text.member [' '] [] [' '] _ _ _ _ Blank_space Blank_nil Blank_space
            (StrText_plain "errors".data (by decide))
            (Text.arrEmpty [] Blank_nil))
          (Text.membersMore [] _ _ _ _ Blank_nil
            (Text.member [' '] [] [' '] _ _ _ _ Blank_space Blank_nil Blank_space
              (StrText_plain "count".data (by decide))
              (Text.num ['2'] (NumText_digit '2' (by decide))))
            (Text.membersEnd [' '] Blank_space)))),
    by decide⟩

/-- The first body of the spec is a JSON text. -/
theorem oneIdListing_text :
    JsonText (Json.obj [("result", Json.arr [Json.obj [("id", Json.str "zid-1")]])])
      "\x7b\"result\":[\x7b\"id\":\"zid-1\"\x7d]\x7d".data :=
  ⟨[], _, [], Blank_nil, Blank_nil,
    Text.obj _ _ _ _
      (Text.member [] [] [] _ _ _ _ Blank_nil Blank_nil Blank_nil
        (StrText_plain "result".data (by decide))
        (Text.arr [] _ _ _ _ Blank_nil
          (Text.obj _ _ _ _
            (Text.member [] [] [] _ _ _ _ Blank_nil Blank_nil Blank_nil
              (StrText_plain "id".data (by decide))
              (Text.str _ _ (StrText_plain "zid-1".data (by decide))))
            (Text.membersEnd [] Blank_nil))
          (Text.itemsEnd [] Blank_nil)))
      (Text.membersEnd [] Blank_nil),
    by decide⟩

/-- The second body of the spec is a JSON text. -/
theorem emptyListing_text :
    JsonText (Json.obj [("result", Json.arr [])]) "\x7b\"result\":[]\x7d".data :=
  ⟨[], _, [], Blank_nil, Blank_nil,
    Text.obj _ _ _ _
      (Text.member [] [] [] _ _ _ _ Blank_nil Blank_nil Blank_nil
        (StrText_plain "result".data (by decide)) (Text.arrEmpty [] Blank_nil))
      (Text.membersEnd [] Blank_nil),
    by decide⟩

/-! ### The client -/

/-- The header built by `authHeader`, field by field. -/
theorem authHeader_eq (p : Params) :
    authHeader p =
      [("X-Auth-Email", p.Email), ("X-Auth-Key", p.Key),
        ("Content-Type", "application/json")] := rfl

/-- `GetZoneId` when the request cannot be built. -/
theorem GetZoneId_of_build_err (env : Env) (p : Params) (domain : String)
    (sent : List Request) (err : Error)
    (h : env.newRequest "GET" (ApiUrl ++ "/zones?name=" ++ domain) = some err) :
    GetZoneId env p domain sent = (Ret.ret "" (some err), sent) := by
  simp [GetZoneId, h]

/-- `GetZoneId` when the request is built, by the reply it gets. -/
theorem GetZoneId_of_built (env : Env) (p : Params) (domain : String)
    (sent : List Request)
    (h : env.newRequest "GET" (ApiUrl ++ "/zones?name=" ++ domain) = none) :
    GetZoneId env p domain sent =
      ((match env.roundTrip sent
            ⟨"GET", ApiUrl ++ "/zones?name=" ++ domain, authHeader p, none⟩ with
        | Reply.doErr err => Ret.ret "" (some err)
        | Reply.readErr err => Ret.ret "" (some err)
        | Reply.body body =>
          Ret.ret (gjsonGetString env.gjsonOther body "result.0.id") none),
       sent ++ [⟨"GET", ApiUrl ++ "/zones?name=" ++ domain, authHeader p, none⟩]) := by
  simp only [GetZoneId, h]
  split <;> rfl

/-- `sendAction` when the request cannot be built. -/
theorem sendAction_of_build_err (env : Env) (p : Params) (method url payload : String)
    (sent : List Request) (err : Error) (h : env.newRequest method url = some err) :
    sendAction env p method url payload sent = (Ret.ret "" (some err), sent) := by
  simp [sendAction, h]

/-- `sendAction` when the request is built, by the reply it gets. -/
theorem sendAction_of_built (env : Env) (p : Params) (method url payload : String)
    (sent : List Request) (h : env.newRequest method url = none) :
    sendAction env p method url payload sent =
      ((match env.roundTrip sent ⟨method, url, authHeader p, some payload⟩ with
        | Reply.doErr err => Ret.ret "" (some err)
        | Reply.readErr err => Ret.ret "" (some err)
        | Reply.body body => Ret.ret body none),
       sent ++ [⟨method, url, authHeader p, some payload⟩]) := by
  simp only [sendAction, h]
  split <;> rfl

/-- Requests added by `GetZoneId` carry the three header fields. -/
theorem GetZoneId_header (env : Env) (p : Params) (domain : String)
    (sent : List Request) (r : Request) (h : r ∈ (GetZoneId env p domain sent).2) :
    r ∈ sent ∨ r.header = authHeader p := by
  cases hn : env.newRequest "GET" (ApiUrl ++ "/zones?name=" ++ domain) with
  | some err =>
    rw [GetZoneId_of_build_err env p domain sent err hn] at h
    exact Or.inl h
  | none =>
    rw [GetZoneId_of_built env p domain sent hn] at h
    rcases List.mem_append.mp h with h1 | h1
    · exact Or.inl h1
    · right
      rw [List.mem_singleton.mp h1]

/-- Requests added by `sendAction` carry the three header fields. -/
theorem sendAction_header (env : Env) (p : Params) (method url payload : String)
    (sent : List Request) (r : Request)
    (h : r ∈ (sendAction env p method url payload sent).2) :
    r ∈ sent ∨ r.header = authHeader p := by
  cases hn : env.newRequest method url with
  | some err =>
    rw [sendAction_of_build_err env p method url payload sent err hn] at h
    exact Or.inl h
  | none =>
    rw [sendAction_of_built env p method url payload sent hn] at h
    rcases List.mem_append.mp h with h1 | h1
    · exact Or.inl h1
    · right
      rw [List.mem_singleton.mp h1]

/-- Requests added by `ClearCache` carry the three header fields. -/
theorem ClearCache_header (env : Env) (p : Params) (domain : String)
    (sent : List Request) (r : Request) (h : r ∈ (ClearCache env p domain sent).2) :
    r ∈ sent ∨ r.header = authHeader p := by
  have hz := GetZoneId_header env p domain sent r
  unfold ClearCache at h
  split at h
  next msg s1 heq => rw [heq] at hz; exact hz h
  next v err s1 heq => rw [heq] at hz; exact hz h
  next z s1 heq =>
    rw [heq] at hz
    simp only [jsonMarshalBoolMap] at h
    rcases sendAction_header env p _ _ _ s1 r h with h1 | h1
    · exact hz h1
    · exact Or.inr h1

/-- Requests added by `DevelopmentMode` carry the three header fields. -/
theorem DevelopmentMode_header (env : Env) (p : Params) (domain : String)
    (enable : GoString)
    (sent : List Request) (r : Request)
    (h : r ∈ (DevelopmentMode env p domain enable sent).2) :
    r ∈ sent ∨ r.header = authHeader p := by
  have hz := GetZoneId_header env p domain sent r
  unfold DevelopmentMode at h
  split at h
  next msg s1 heq => rw [heq] at hz; exact hz h
  next v err s1 heq => rw [heq] at hz; exact hz h
  next z s1 heq =>
    rw [heq] at hz
    simp only [jsonMarshalStringMap] at h
    rcases sendAction_header env p _ _ _ s1 r h with h1 | h1
    · exact hz h1
    · exact Or.inr h1

/-- Requests added by `SecureLevel` carry the three header fields. -/
theorem SecureLevel_header (env : Env) (p : Params) (domain : String) (level : GoString)
    (sent : List Request) (r : Request)
    (h : r ∈ (SecureLevel env p domain level sent).2) :
    r ∈ sent ∨ r.header = authHeader p := by
  have hz := GetZoneId_header env p domain sent r
  unfold SecureLevel at h
  split at h
  next msg s1 heq => rw [heq] at hz; exact hz h
  next v err s1 heq => rw [heq] at hz; exact hz h
  next z s1 heq =>
    rw [heq] at hz
    simp only [jsonMarshalStringMap] at h
    rcases sendAction_header env p _ _ _ s1 r h with h1 | h1
    · exact hz h1
    · exact Or.inr h1

/-- C9: every request issued by `GetZoneId`, `ClearCache`, `DevelopmentMode` or
`SecureLevel` carries `X-Auth-Email` with the credentials' email, `X-Auth-Key`
with their key, and `Content-Type: application/json`. -/
theorem every_request_carries_auth_header (env : Env) (p : Params)
    (domain : String) (enable level : GoString) (r : Request)
    (h : r ∈ (GetZoneId env p domain []).2 ∨ r ∈ (ClearCache env p domain []).2 ∨
      r ∈ (DevelopmentMode env p domain enable []).2 ∨
      r ∈ (SecureLevel env p domain level []).2) :
    r.header =
      [("X-Auth-Email", p.Email), ("X-Auth-Key", p.Key),
        ("Content-Type", "application/json")] := by
  rw [← authHeader_eq]
  rcases h with h | h | h | h
  · rcases GetZoneId_header env p domain [] r h with h1 | h1
    · simp at h1
    · exact h1
  · rcases ClearCache_header env p domain [] r h with h1 | h1
    · simp at h1
    · exact h1
  · rcases DevelopmentMode_header env p domain enable [] r h with h1 | h1
    · simp at h1
    · exact h1
  · rcases SecureLevel_header env p domain level [] r h with h1 | h1
    · simp at h1
    · exact h1

/-- C9 at a concrete run: `SecureLevel` sends two requests there, and both
carry the three header fields. -/
theorem every_request_carries_auth_header_witness :
    (SecureLevel (sampleEnv noVars oneZone (Reply.body "ok")) sampleParams
        "example.com" "high" []).2.length = 2 ∧
    ∀ r ∈ (SecureLevel (sampleEnv noVars oneZone (Reply.body "ok")) sampleParams
        "example.com" "high" []).2,
      r.header =
        [("X-Auth-Email", "ops@example.com"), ("X-Auth-Key", "s3cr3t"),
          ("Content-Type", "application/json")] :=
  ⟨by decide, fun r hr =>
    every_request_carries_auth_header (sampleEnv noVars oneZone (Reply.body "ok"))
      sampleParams "example.com" "on" "high" r (Or.inr (Or.inr (Or.inr hr)))⟩

/-- C6 as stated fails: for a domain that ends in a carriage return (as a value
taken from a file with CRLF line ends does) `http.NewRequest` rejects the URL,
so `GetZoneId` issues no request at all and returns the error. -/
theorem GetZoneId_control_character_no_request :
    GetZoneId (sampleEnv noVars oneZone oneZone) sampleParams "example.com\r" [] =
      (Ret.ret "" (some "net/url: invalid control character in URL"), []) := by
  decide

/-- C6, amended: for every domain whose lookup request can be built,
`GetZoneId` issues exactly one request, a GET whose URL is the base URL
followed by `/zones?name=` and the domain as given. -/
theorem GetZoneId_issues_one_get (env : Env) (p : Params) (domain : String)
    (sent : List Request)
    (h : env.newRequest "GET"
      ("https://api.cloudflare.com/client/v4" ++ "/zones?name=" ++ domain) = none) :
    (GetZoneId env p domain sent).2 =
      sent ++ [⟨"GET", "https://api.cloudflare.com/client/v4" ++ "/zones?name=" ++ domain,
        [("X-Auth-Email", p.Email), ("X-Auth-Key", p.Key),
          ("Content-Type", "application/json")], none⟩] := by
  rw [GetZoneId_of_built env p domain sent h]
  rfl

/-- C6, amended, at `example.com`. -/
theorem GetZoneId_issues_one_get_witness :
    (GetZoneId (sampleEnv noVars oneZone oneZone) sampleParams "example.com" []).2 =
      [⟨"GET", "https://api.cloudflare.com/client/v4/zones?name=example.com",
        [("X-Auth-Email", "ops@example.com"), ("X-Auth-Key", "s3cr3t"),
          ("Content-Type", "application/json")], none⟩] :=
  GetZoneId_issues_one_get (sampleEnv noVars oneZone oneZone) sampleParams "example.com" []
    (by decide)

/-- `conclude` records exactly the call it is given and the requests of that
call. -/
theorem conclude_calls_sent (call : Call) (label : String) (print : String → Output)
    (r : Ret × List Request) :
    (conclude call label print r).calls = [call] ∧ (conclude call label print r).sent = r.2 := by
  unfold conclude
  split <;> exact ⟨rfl, rfl⟩

/-- `main` with no action flag. -/
theorem main_of_no_action (env : Env) (flags : Flags)
    (h : flags.cache = false ∧ flags.dev = "" ∧ flags.secureLevel = "") :
    main env flags =
      ⟨[], [], [Output.stdout "No actions specified. Available options:", Output.usage],
        0⟩ := by
  simp [main, h]

/-- `main` with `-purge-cache`. -/
theorem main_of_cache (env : Env) (flags : Flags) (h : flags.cache = true) :
    main env flags =
      conclude (Call.ClearCache (mainParams env flags) (mainDomain env flags))
        "Error clearing cache: " Output.log
        (ClearCache env (mainParams env flags) (mainDomain env flags) []) := by
  simp [main, h, mainParams, mainDomain]

/-- `main` without `-purge-cache` and with a non-empty `-secure-level`. -/
theorem main_of_secureLevel (env : Env) (flags : Flags) (hc : flags.cache = false)
    (hs : flags.secureLevel ≠ "") :
    main env flags =
      if flags.secureLevel = "attack" then
        secureLevelArm env (mainParams env flags) (mainDomain env flags) "under_attack"
      else if flags.secureLevel = "high" then
        secureLevelArm env (mainParams env flags) (mainDomain env flags) "high"
      else if flags.secureLevel = "medium" then
        secureLevelArm env (mainParams env flags) (mainDomain env flags) "medium"
      else if flags.secureLevel = "low" then
        secureLevelArm env (mainParams env flags) (mainDomain env flags) "low"
      else
        ⟨[], [],
          [Output.log
            "Invalid security level specified. Available options: attack/high/medium/low"],
          0⟩ := by
  simp [main, hc, hs, mainParams, mainDomain]

/-- `main` with `-development-mode` as the only action flag. -/
theorem main_of_dev (env : Env) (flags : Flags) (hc : flags.cache = false)
    (hs : flags.secureLevel = "") (hd : flags.dev ≠ "") :
    main env flags =
      conclude (Call.DevelopmentMode (mainParams env flags) (mainDomain env flags) flags.dev)
        "Error setting development mode: " Output.stdout
        (DevelopmentMode env (mainParams env flags) (mainDomain env flags) flags.dev []) := by
  simp [main, hc, hs, hd, mainParams, mainDomain]

/-- A security-level arm records its call and the requests of that call. -/
theorem secureLevelArm_calls_sent (env : Env) (p : Params) (domain : String)
    (token : GoString) :
    (secureLevelArm env p domain token).calls = [Call.SecureLevel p domain token] ∧
    (secureLevelArm env p domain token).sent = (SecureLevel env p domain token []).2 :=
  conclude_calls_sent _ _ _ _

/-- C2: `main` makes at most one method call per run, chosen by priority.  With
no action flag it calls nothing, prints the usage text and ends with status 0;
with `-purge-cache` it calls `ClearCache` only, whatever the other flags hold;
otherwise, with a non-empty `-secure-level`, it calls nothing or `SecureLevel`
only; otherwise, with a non-empty `-development-mode`, it calls
`DevelopmentMode` only, with the mode as given.  The requests of the run are
those of the one call. -/
theorem main_one_action_by_priority (env : Env) (flags : Flags) :
    (main env flags).calls.length ≤ 1 ∧
    (flags.cache = false ∧ flags.dev = "" ∧ flags.secureLevel = "" →
      main env flags =
        ⟨[], [], [Output.stdout "No actions specified. Available options:", Output.usage],
          0⟩) ∧
    (flags.cache = true →
      ∃ p d, (main env flags).calls = [Call.ClearCache p d] ∧
        (main env flags).sent = (ClearCache env p d []).2) ∧
    (flags.cache = false ∧ flags.secureLevel ≠ "" →
      ((main env flags).calls = [] ∧ (main env flags).sent = []) ∨
      ∃ p d level, (main env flags).calls = [Call.SecureLevel p d level] ∧
        (main env flags).sent = (SecureLevel env p d level []).2) ∧
    (flags.cache = false ∧ flags.secureLevel = "" ∧ flags.dev ≠ "" →
      ∃ p d, (main env flags).calls = [Call.DevelopmentMode p d flags.dev] ∧
        (main env flags).sent = (DevelopmentMode env p d flags.dev []).2) := by
  have hcache : flags.cache = true →
      ∃ p d, (main env flags).calls = [Call.ClearCache p d] ∧
        (main env flags).sent = (ClearCache env p d []).2 := by
    intro h
    rw [main_of_cache env flags h]
    exact ⟨mainParams env flags, mainDomain env flags, conclude_calls_sent _ _ _ _⟩
  have hlevel : flags.cache = false ∧ flags.secureLevel ≠ "" →
      ((main env flags).calls = [] ∧ (main env flags).sent = []) ∨
      ∃ p d level, (main env flags).calls = [Call.SecureLevel p d level] ∧
        (main env flags).sent = (SecureLevel env p d level []).2 := by
    rintro ⟨hc, hs⟩
    rw [main_of_secureLevel env flags hc hs]
    split_ifs
    · exact Or.inr ⟨_, _, _, secureLevelArm_calls_sent _ _ _ _⟩
    · exact Or.inr ⟨_, _, _, secureLevelArm_calls_sent _ _ _ _⟩
    · exact Or.inr ⟨_, _, _, secureLevelArm_calls_sent _ _ _ _⟩
    · exact Or.inr ⟨_, _, _, secureLevelArm_calls_sent _ _ _ _⟩
    · exact Or.inl ⟨rfl, rfl⟩
  have hdev : flags.cache = false ∧ flags.secureLevel = "" ∧ flags.dev ≠ "" →
      ∃ p d, (main env flags).calls = [Call.DevelopmentMode p d flags.dev] ∧
        (main env flags).sent = (DevelopmentMode env p d flags.dev []).2 := by
    rintro ⟨hc, hs, hd⟩
    rw [main_of_dev env flags hc hs hd]
    exact ⟨mainParams env flags, mainDomain env flags, conclude_calls_sent _ _ _ _⟩
  refine ⟨?_, main_of_no_action env flags, hcache, hlevel, hdev⟩
  cases hc : flags.cache with
  | true =>
    obtain ⟨p, d, h1, _⟩ := hcache hc
    simp [h1]
  | false =>
    by_cases hs : flags.secureLevel = ""
    · by_cases hd : flags.dev = ""
      · simp [main_of_no_action env flags ⟨hc, hd, hs⟩]
      · obtain ⟨p, d, h1, _⟩ := hdev ⟨hc, hs, hd⟩
        simp [h1]
    · rcases hlevel ⟨hc, hs⟩ with ⟨h1, _⟩ | ⟨p, d, level, h1, _⟩
      · simp [h1]
      · simp [h1]

/-- C2 at a run with all three action flags given: `ClearCache` is the one
call. -/
theorem main_one_action_by_priority_witness :
    (main (sampleEnv noVars oneZone (Reply.body "done"))
        ⟨"ops@example.com", "s3cr3t", "example.com", true, "on", "high"⟩).calls.length ≤ 1 ∧
    ∃ p d,
      (main (sampleEnv noVars oneZone (Reply.body "done"))
        ⟨"ops@example.com", "s3cr3t", "example.com", true, "on", "high"⟩).calls =
        [Call.ClearCache p d] ∧
      (main (sampleEnv noVars oneZone (Reply.body "done"))
        ⟨"ops@example.com", "s3cr3t", "example.com", true, "on", "high"⟩).sent =
        (ClearCache (sampleEnv noVars oneZone (Reply.body "done")) p d []).2 :=
  ⟨(main_one_action_by_priority (sampleEnv noVars oneZone (Reply.body "done"))
      ⟨"ops@example.com", "s3cr3t", "example.com", true, "on", "high"⟩).1,
   (main_one_action_by_priority (sampleEnv noVars oneZone (Reply.body "done"))
      ⟨"ops@example.com", "s3cr3t", "example.com", true, "on", "high"⟩).2.2.1 rfl⟩

/-- C3: when the security-level action is the selected one (`-purge-cache`
unset, `-secure-level` non-empty) and the token is none of `attack`, `high`,
`medium`, `low`, the run makes no call, sends no request, logs the invalid-level
message and ends with status 0. -/
theorem main_invalid_level_no_request (env : Env) (flags : Flags)
    (hc : flags.cache = false) (hs : flags.secureLevel ≠ "")
    (h1 : flags.secureLevel ≠ "attack") (h2 : flags.secureLevel ≠ "high")
    (h3 : flags.secureLevel ≠ "medium") (h4 : flags.secureLevel ≠ "low") :
    main env flags =
      ⟨[], [],
        [Output.log
          "Invalid security level specified. Available options: attack/high/medium/low"],
        0⟩ := by
  simp [main, hc, hs, h1, h2, h3, h4]

/-- C3 at `-secure-level bogus`, with `-development-mode on` also given. -/
theorem main_invalid_level_no_request_witness :
    main (sampleEnv noVars oneZone (Reply.body "ok"))
        ⟨"ops@example.com", "s3cr3t", "example.com", false, "on", "bogus"⟩ =
      ⟨[], [],
        [Output.log
          "Invalid security level specified. Available options: attack/high/medium/low"],
        0⟩ :=
  main_invalid_level_no_request (sampleEnv noVars oneZone (Reply.body "ok"))
    ⟨"ops@example.com", "s3cr3t", "example.com", false, "on", "bogus"⟩
    (by decide) (by decide) (by decide) (by decide) (by decide) (by decide)

/-- Every call of a run has the credentials and the domain resolved by `main`. -/
theorem main_call_args (env : Env) (flags : Flags) (c : Call)
    (h : c ∈ (main env flags).calls) :
    c.params = mainParams env flags ∧ c.domain = mainDomain env flags := by
  cases hc : flags.cache with
  | true =>
    rw [main_of_cache env flags hc, (conclude_calls_sent _ _ _ _).1] at h
    rw [List.mem_singleton.mp h]
    exact ⟨rfl, rfl⟩
  | false =>
    by_cases hs : flags.secureLevel = ""
    · by_cases hd : flags.dev = ""
      · rw [main_of_no_action env flags ⟨hc, hd, hs⟩] at h
        simp at h
      · rw [main_of_dev env flags hc hs hd, (conclude_calls_sent _ _ _ _).1] at h
        rw [List.mem_singleton.mp h]
        exact ⟨rfl, rfl⟩
    · rw [main_of_secureLevel env flags hc hs] at h
      split_ifs at h
      · rw [(secureLevelArm_calls_sent _ _ _ _).1] at h
        rw [List.mem_singleton.mp h]
        exact ⟨rfl, rfl⟩
      · rw [(secureLevelArm_calls_sent _ _ _ _).1] at h
        rw [List.mem_singleton.mp h]
        exact ⟨rfl, rfl⟩
      · rw [(secureLevelArm_calls_sent _ _ _ _).1] at h
        rw [List.mem_singleton.mp h]
        exact ⟨rfl, rfl⟩
      · rw [(secureLevelArm_calls_sent _ _ _ _).1] at h
        rw [List.mem_singleton.mp h]
        exact ⟨rfl, rfl⟩
      · simp at h

/-- C10: for every method call `main` makes, the receiver's email, its key and
the domain argument are each the flag's value when that value is non-empty and
otherwise the value of `CF_EMAIL`, `CF_KEY`, `CF_DOMAIN` respectively. -/
theorem main_flag_or_environment (env : Env) (flags : Flags) (c : Call)
    (h : c ∈ (main env flags).calls) :
    (flags.email ≠ "" → c.params.Email = flags.email) ∧
    (flags.email = "" → c.params.Email = env.getenv "CF_EMAIL") ∧
    (flags.key ≠ "" → c.params.Key = flags.key) ∧
    (flags.key = "" → c.params.Key = env.getenv "CF_KEY") ∧
    (flags.domain ≠ "" → c.domain = flags.domain) ∧
    (flags.domain = "" → c.domain = env.getenv "CF_DOMAIN") := by
  obtain ⟨hp, hd⟩ := main_call_args env flags c h
  rw [hp, hd]
  simp only [mainParams, mainDomain]
  refine ⟨?_, ?_, ?_, ?_, ?_, ?_⟩ <;> intro h0 <;> simp [h0]

/-- C10 at a run with `-email` given and `-key`, `-zone` left empty: the one
call is `ClearCache` with the flag's email, the key from `CF_KEY` and the
domain from `CF_DOMAIN`. -/
theorem main_flag_or_environment_witness :
    (main (sampleEnv sampleVars oneZone (Reply.body "ok"))
        ⟨"flag@example.com", "", "", true, "", ""⟩).calls =
      [Call.ClearCache ⟨"flag@example.com", "envkey"⟩ "env.example.com"] ∧
    (("flag@example.com" ≠ "" → "flag@example.com" = "flag@example.com") ∧
     ("flag@example.com" = "" → "flag@example.com" = sampleVars "CF_EMAIL") ∧
     (("" : String) ≠ "" → "envkey" = "") ∧
     (("" : String) = "" → "envkey" = sampleVars "CF_KEY") ∧
     (("" : String) ≠ "" → "env.example.com" = "") ∧
     (("" : String) = "" → "env.example.com" = sampleVars "CF_DOMAIN")) :=
  ⟨by decide,
    main_flag_or_environment (sampleEnv sampleVars oneZone (Reply.body "ok"))
      ⟨"flag@example.com", "", "", true, "", ""⟩
      (Call.ClearCache ⟨"flag@example.com", "envkey"⟩ "env.example.com") (by decide)⟩

/-- C4 at a failing zone lookup (the connection is refused): `GetZoneId`
returns the error, and `ClearCache` and `DevelopmentMode` return `("", err)` to
their caller after the one lookup request, but `SecureLevel` does not return:
it ends the process through `log.Fatalf` with its own message. -/
theorem SecureLevel_lookup_error_is_fatal :
    GetZoneId (sampleEnv noVars (Reply.doErr "connection refused") (Reply.body "ok"))
        sampleParams "example.com" [] =
      (Ret.ret "" (some "connection refused"),
        [⟨"GET", "https://api.cloudflare.com/client/v4/zones?name=example.com",
          authHeader sampleParams, none⟩]) ∧
    ClearCache (sampleEnv noVars (Reply.doErr "connection refused") (Reply.body "ok"))
        sampleParams "example.com" [] =
      (Ret.ret "" (some "connection refused"),
        [⟨"GET", "https://api.cloudflare.com/client/v4/zones?name=example.com",
          authHeader sampleParams, none⟩]) ∧
    DevelopmentMode (sampleEnv noVars (Reply.doErr "connection refused") (Reply.body "ok"))
        sampleParams "example.com" "on" [] =
      (Ret.ret "" (some "connection refused"),
        [⟨"GET", "https://api.cloudflare.com/client/v4/zones?name=example.com",
          authHeader sampleParams, none⟩]) ∧
    SecureLevel (sampleEnv noVars (Reply.doErr "connection refused") (Reply.body "ok"))
        sampleParams "example.com" "high" [] =
      (Ret.fatal "Error getting zone id: connection refused",
        [⟨"GET", "https://api.cloudflare.com/client/v4/zones?name=example.com",
          authHeader sampleParams, none⟩]) := by
  decide

/-- The components of the path `result.0.id`. -/
theorem splitPath_result_0_id :
    splitPath "result.0.id".data = ["result".data, "0".data, "id".data] := by
  decide

/-- The lookup on a document whose `result` array starts with an object that
has a string `id`. -/
theorem gjsonGetString_first_id (other : String → String → String) (body : String)
    (members fs : List (String × Json)) (rest : List Json) (s : String)
    (hdoc : parseJson body = some (Json.obj members))
    (hres : lookupKey "result" members = some (Json.arr (Json.obj fs :: rest)))
    (hid : lookupKey "id" fs = some (Json.str s)) :
    gjsonGetString other body "result.0.id" = s := by
  have h1 : (Json.obj members).child "result".data = some (Json.arr (Json.obj fs :: rest)) :=
    hres
  have h2 : (Json.arr (Json.obj fs :: rest)).child "0".data = some (Json.obj fs) := rfl
  have h3 : (Json.obj fs).child "id".data = some (Json.str s) := hid
  simp only [gjsonGetString, hdoc, splitPath_result_0_id, Json.getPath, h1, h2, h3]

/-- The lookup on a document whose `result` array is empty. -/
theorem gjsonGetString_empty_result (other : String → String → String) (body : String)
    (members : List (String × Json))
    (hdoc : parseJson body = some (Json.obj members))
    (hres : lookupKey "result" members = some (Json.arr [])) :
    gjsonGetString other body "result.0.id" = "" := by
  have h1 : (Json.obj members).child "result".data = some (Json.arr []) := hres
  have h2 : (Json.arr []).child "0".data = none := rfl
  simp only [gjsonGetString, hdoc, splitPath_result_0_id, Json.getPath, h1, h2]

/-- The first member carrying a key is the one `lookupKey` finds. -/
theorem lookupKey_split (k : String) (v : Json) (pre post : List (String × Json))
    (h : ∀ m ∈ pre, m.1 ≠ k) : lookupKey k (pre ++ (k, v) :: post) = some v := by
  induction pre with
  | nil => simp [lookupKey]
  | cons m pre ih =>
    have hm := h m (List.mem_cons_self m pre)
    simp only [List.cons_append, lookupKey, hm, if_false]
    exact ih (fun d hd => h d (List.mem_cons_of_mem m hd))

/-- C5: when the lookup request is answered with a body that is a JSON text
for an object, `GetZoneId` returns with no error the string `s` whenever the
first member named `result` is an array whose first element is an object whose
first member named `id` is the string `s`, and it returns the empty string with
no error whenever the first member named `result` is the empty array. -/
theorem GetZoneId_returns_first_id (env : Env) (p : Params) (domain : String)
    (sent : List Request) (body : String) (members : List (String × Json))
    (hreq : env.newRequest "GET"
      ("https://api.cloudflare.com/client/v4" ++ "/zones?name=" ++ domain) = none)
    (hreply : env.roundTrip sent
      ⟨"GET", "https://api.cloudflare.com/client/v4" ++ "/zones?name=" ++ domain,
        [("X-Auth-Email", p.Email), ("X-Auth-Key", p.Key),
          ("Content-Type", "application/json")], none⟩ = Reply.body body)
    (hdoc : JsonText (Json.obj members) body.data) :
    (∀ (pre post fs : List (String × Json)) (rest : List Json)
        (pre2 post2 : List (String × Json)) (s : String),
      members = pre ++ ("result", Json.arr (Json.obj fs :: rest)) :: post →
      (∀ m ∈ pre, m.1 ≠ "result") →
      fs = pre2 ++ ("id", Json.str s) :: post2 →
      (∀ m ∈ pre2, m.1 ≠ "id") →
      (GetZoneId env p domain sent).1 = Ret.ret s none) ∧
    (∀ pre post : List (String × Json),
      members = pre ++ ("result", Json.arr []) :: post →
      (∀ m ∈ pre, m.1 ≠ "result") →
      (GetZoneId env p domain sent).1 = Ret.ret "" none) := by
  have hparse := parseJson_complete _ body hdoc
  change env.newRequest "GET" (ApiUrl ++ "/zones?name=" ++ domain) = none at hreq
  change env.roundTrip sent
    ⟨"GET", ApiUrl ++ "/zones?name=" ++ domain, authHeader p, none⟩ = Reply.body body at hreply
  rw [GetZoneId_of_built env p domain sent hreq, hreply]
  constructor
  · intro pre post fs rest pre2 post2 s hm hpre hfs hpre2
    have hres := lookupKey_split "result" (Json.arr (Json.obj fs :: rest)) pre post hpre
    rw [← hm] at hres
    have hid := lookupKey_split "id" (Json.str s) pre2 post2 hpre2
    rw [← hfs] at hid
    simp only [gjsonGetString_first_id env.gjsonOther body members fs rest s hparse hres hid]
  · intro pre post hm hpre
    have hres := lookupKey_split "result" (Json.arr []) pre post hpre
    rw [← hm] at hres
    simp only [gjsonGetString_empty_result env.gjsonOther body members hparse hres]

/-- C5 at three bodies: the two of the spec (`zid-1` for a listing whose one
zone has that id, the empty string for an empty listing), and a listing written
with whitespace that has other members before `result` and before `id`, escapes
in a name and a second zone (`zid-1`, the id of the first zone). -/
theorem GetZoneId_returns_first_id_witness :
    (GetZoneId
        (sampleEnv noVars (Reply.body "\x7b\"result\":[\x7b\"id\":\"zid-1\"\x7d]\x7d") oneZone)
        sampleParams "example.com" []).1 = Ret.ret "zid-1" none ∧
    (GetZoneId (sampleEnv noVars (Reply.body "\x7b\"result\":[]\x7d") oneZone)
        sampleParams "example.com" []).1 = Ret.ret "" none ∧
    (GetZoneId (sampleEnv noVars (Reply.body sampleListing) oneZone)
        sampleParams "example.com" []).1 = Ret.ret "zid-1" none :=
  ⟨(GetZoneId_returns_first_id
      (sampleEnv noVars (Reply.body "\x7b\"result\":[\x7b\"id\":\"zid-1\"\x7d]\x7d") oneZone)
      sampleParams "example.com" [] "\x7b\"result\":[\x7b\"id\":\"zid-1\"\x7d]\x7d"
      [("result", Json.arr [Json.obj [("id", Json.str "zid-1")]])]
      (by decide) (by decide) oneIdListing_text).1
        [] [] [("id", Json.str "zid-1")] [] [] [] "zid-1" rfl (by decide) rfl (by decide),
   (GetZoneId_returns_first_id
      (sampleEnv noVars (Reply.body "\x7b\"result\":[]\x7d") oneZone)
      sampleParams "example.com" [] "\x7b\"result\":[]\x7d"
      [("result", Json.arr [])]
      (by decide) (by decide) emptyListing_text).2 [] [] rfl (by decide),
   (GetZoneId_returns_first_id
      (sampleEnv noVars (Reply.body sampleListing) oneZone)
      sampleParams "example.com" [] sampleListing _
      (by decide) (by decide) sampleListing_text).1
        [("success", Json.bool true)]
        [("errors", Json.arr []), ("count", Json.num ['2'])]
        [("name", Json.str "café 😀"), ("id", Json.str "zid-1")]
        [Json.obj [("id", Json.str "zid-2")]]
        [("name", Json.str "café 😀")] [] "zid-1" rfl (by decide) rfl (by decide)⟩

/-- A lookup that returns without error has built and sent its request. -/
theorem GetZoneId_of_ok (env : Env) (p : Params) (domain : String)
    (sent : List Request) (z : String)
    (h : (GetZoneId env p domain sent).1 = Ret.ret z none) :
    GetZoneId env p domain sent =
      (Ret.ret z none,
        sent ++ [⟨"GET", ApiUrl ++ "/zones?name=" ++ domain, authHeader p, none⟩]) := by
  cases hn : env.newRequest "GET" (ApiUrl ++ "/zones?name=" ++ domain) with
  | some err =>
    rw [GetZoneId_of_build_err env p domain sent err hn] at h
    simp at h
  | none =>
    rw [GetZoneId_of_built env p domain sent hn] at h ⊢
    simp only at h
    rw [h]

/-- The payload of `ClearCache`. -/
theorem purge_payload :
    jsonMarshalBoolMap [("purge_everything", true)] =
      Except.ok "\x7b\"purge_everything\":true\x7d" := by
  rfl

/-- C7 as stated fails.  First world: the lookup succeeds with zone id `abc123`
and the POST fails in transport; `ClearCache` sends both requests and returns
the transport error, not a response body.  Second world: the lookup succeeds
with a zone id that holds a line feed; the POST cannot be built, so the lookup
is the only request. -/
theorem ClearCache_post_may_fail :
    ((GetZoneId (sampleEnv noVars oneZone (Reply.doErr "connection reset"))
        sampleParams "example.com" []).1 = Ret.ret "abc123" none ∧
     ClearCache (sampleEnv noVars oneZone (Reply.doErr "connection reset"))
        sampleParams "example.com" [] =
      (Ret.ret "" (some "connection reset"),
        [⟨"GET", "https://api.cloudflare.com/client/v4/zones?name=example.com",
           authHeader sampleParams, none⟩,
         ⟨"POST", "https://api.cloudflare.com/client/v4/zones/abc123/purge_cache",
           authHeader sampleParams, some "\x7b\"purge_everything\":true\x7d"⟩])) ∧
    ((GetZoneId (sampleEnv noVars oddZone (Reply.body "ok"))
        sampleParams "example.com" []).1 = Ret.ret "abc\n123" none ∧
     ClearCache (sampleEnv noVars oddZone (Reply.body "ok")) sampleParams "example.com" [] =
      (Ret.ret "" (some "net/url: invalid control character in URL"),
        [⟨"GET", "https://api.cloudflare.com/client/v4/zones?name=example.com",
           authHeader sampleParams, none⟩])) := by
  decide

/-- C7, amended: for every domain whose zone lookup succeeds with zone id `z`
and for which the POST to `<base>/zones/z/purge_cache` can be built,
`ClearCache` issues exactly two requests in order, the lookup GET and that POST
with body `{"purge_everything":true}`; and when the POST is answered with a
body `b`, it returns `b` with no error. -/
theorem ClearCache_purges (env : Env) (p : Params) (domain : String)
    (sent : List Request) (z : String)
    (hz : (GetZoneId env p domain sent).1 = Ret.ret z none)
    (hreq : env.newRequest "POST"
      ("https://api.cloudflare.com/client/v4" ++ "/zones/" ++ z ++ "/purge_cache") = none) :
    (ClearCache env p domain sent).2 =
      sent ++
        [⟨"GET", "https://api.cloudflare.com/client/v4" ++ "/zones?name=" ++ domain,
           [("X-Auth-Email", p.Email), ("X-Auth-Key", p.Key),
             ("Content-Type", "application/json")], none⟩,
         ⟨"POST", "https://api.cloudflare.com/client/v4" ++ "/zones/" ++ z ++ "/purge_cache",
           [("X-Auth-Email", p.Email), ("X-Auth-Key", p.Key),
             ("Content-Type", "application/json")],
           some "\x7b\"purge_everything\":true\x7d"⟩] ∧
    ∀ b : String,
      env.roundTrip
        (sent ++ [⟨"GET", "https://api.cloudflare.com/client/v4" ++ "/zones?name=" ++ domain,
          [("X-Auth-Email", p.Email), ("X-Auth-Key", p.Key),
            ("Content-Type", "application/json")], none⟩])
        ⟨"POST", "https://api.cloudflare.com/client/v4" ++ "/zones/" ++ z ++ "/purge_cache",
          [("X-Auth-Email", p.Email), ("X-Auth-Key", p.Key),
            ("Content-Type", "application/json")],
          some "\x7b\"purge_everything\":true\x7d"⟩ = Reply.body b →
      (ClearCache env p domain sent).1 = Ret.ret b none := by
  have hz2 := GetZoneId_of_ok env p domain sent z hz
  simp only [← authHeader_eq]
  change env.newRequest "POST" (ApiUrl ++ "/zones/" ++ z ++ "/purge_cache") = none at hreq
  have hrun : ClearCache env p domain sent =
      sendAction env p "POST" (ApiUrl ++ "/zones/" ++ z ++ "/purge_cache")
        "\x7b\"purge_everything\":true\x7d"
        (sent ++ [⟨"GET", ApiUrl ++ "/zones?name=" ++ domain, authHeader p, none⟩]) := by
    simp only [ClearCache, hz2]
    rfl
  rw [hrun, sendAction_of_built env p _ _ _ _ hreq]
  constructor
  · simp only [List.append_assoc, List.singleton_append]
    rfl
  · intro b hb
    change env.roundTrip
      (sent ++ [⟨"GET", ApiUrl ++ "/zones?name=" ++ domain, authHeader p, none⟩])
      ⟨"POST", ApiUrl ++ "/zones/" ++ z ++ "/purge_cache", authHeader p,
        some "\x7b\"purge_everything\":true\x7d"⟩ = Reply.body b at hb
    simp only [hb]

/-- C7, amended, at `example.com` with zone id `abc123`: two requests, and the
body `done` of the POST's reply is returned. -/
theorem ClearCache_purges_witness :
    (ClearCache (sampleEnv noVars oneZone (Reply.body "done")) sampleParams
        "example.com" []).2 =
      [⟨"GET", "https://api.cloudflare.com/client/v4/zones?name=example.com",
         [("X-Auth-Email", "ops@example.com"), ("X-Auth-Key", "s3cr3t"),
           ("Content-Type", "application/json")], none⟩,
       ⟨"POST", "https://api.cloudflare.com/client/v4/zones/abc123/purge_cache",
         [("X-Auth-Email", "ops@example.com"), ("X-Auth-Key", "s3cr3t"),
           ("Content-Type", "application/json")],
         some "\x7b\"purge_everything\":true\x7d"⟩] ∧
    (ClearCache (sampleEnv noVars oneZone (Reply.body "done")) sampleParams
        "example.com" []).1 = Ret.ret "done" none :=
  ⟨(ClearCache_purges (sampleEnv noVars oneZone (Reply.body "done")) sampleParams
      "example.com" [] "abc123" (by decide) (by decide)).1,
   (ClearCache_purges (sampleEnv noVars oneZone (Reply.body "done")) sampleParams
      "example.com" [] "abc123" (by decide) (by decide)).2 "done" (by decide)⟩

/-! ### Go strings and the payloads -/

/-- The code points of characters: below the surrogates, or above them and below
0x110000. -/
theorem char_range (c : Char) :
    c.toNat < 0xD800 ∨ (0xDFFF < c.toNat ∧ c.toNat < 0x110000) := by
  have h := c.valid
  simpa [UInt32.isValidChar, Nat.isValidChar, Char.toNat, UInt32.toNat] using h

/-- The low six bits under the marker `10` make a continuation byte. -/
theorem isCont_mod (n : Nat) : isCont (0x80 + n % 64) = true := by
  have : n % 64 < 64 := Nat.mod_lt _ (by decide)
  simp [isCont]
  omega

/-- Decoding the encoding of a character gives the character and its width. -/
theorem decodeRune_encodeChar (c : Char) (bs : List Nat) :
    decodeRune (encodeChar c ++ bs) = (some c, (encodeChar c).length) := by
  have hv := char_range c
  unfold encodeChar
  by_cases h1 : c.toNat < 0x80
  · simp only [h1, if_true, List.singleton_append, decodeRune, Char.ofNat_toNat,
      List.length_singleton]
  by_cases h2 : c.toNat < 0x800
  · have a1 : ¬ (0xC0 + c.toNat / 64 < 0x80) := by omega
    have a2 : 0xC2 ≤ 0xC0 + c.toNat / 64 ∧ 0xC0 + c.toNat / 64 ≤ 0xDF := by omega
    have a3 : (0xC0 + c.toNat / 64 - 0xC0) * 64 + (0x80 + c.toNat % 64 - 0x80) = c.toNat := by
      omega
    simp only [h1, h2, if_true, if_false, List.cons_append, List.nil_append, decodeRune,
      a1, a2, a3, isCont_mod, Char.ofNat_toNat, and_self, List.length_cons, List.length_nil]
  by_cases h3 : c.toNat < 0x10000
  · have a1 : ¬ (0xE0 + c.toNat / 4096 < 0x80) := by omega
    have a2 : ¬ (0xC2 ≤ 0xE0 + c.toNat / 4096 ∧ 0xE0 + c.toNat / 4096 ≤ 0xDF) := by omega
    have a3 : 0xE0 ≤ 0xE0 + c.toNat / 4096 ∧ 0xE0 + c.toNat / 4096 ≤ 0xEF := by omega
    have a4 : secondLo (0xE0 + c.toNat / 4096) ≤ 0x80 + c.toNat / 64 % 64 ∧
        0x80 + c.toNat / 64 % 64 ≤ secondHi (0xE0 + c.toNat / 4096) ∧
        isCont (0x80 + c.toNat % 64) = true := by
      refine ⟨?_, ?_, isCont_mod _⟩
      · unfold secondLo
        split_ifs <;> omega
      · unfold secondHi
        split_ifs <;> omega
    have a5 : ((0xE0 + c.toNat / 4096 - 0xE0) * 64 + (0x80 + c.toNat / 64 % 64 - 0x80)) * 64 +
        (0x80 + c.toNat % 64 - 0x80) = c.toNat := by omega
    simp only [h1, h2, h3, if_true, if_false, List.cons_append, List.nil_append, decodeRune,
      a1, a2, a3, a4, a5, Char.ofNat_toNat, and_self, List.length_cons, List.length_nil]
  · have a1 : ¬ (0xF0 + c.toNat / 262144 < 0x80) := by omega
    have a2 : ¬ (0xC2 ≤ 0xF0 + c.toNat / 262144 ∧ 0xF0 + c.toNat / 262144 ≤ 0xDF) := by omega
    have a3 : ¬ (0xE0 ≤ 0xF0 + c.toNat / 262144 ∧ 0xF0 + c.toNat / 262144 ≤ 0xEF) := by omega
    have a3' : 0xF0 ≤ 0xF0 + c.toNat / 262144 ∧ 0xF0 + c.toNat / 262144 ≤ 0xF4 := by omega
    have a4 : secondLo (0xF0 + c.toNat / 262144) ≤ 0x80 + c.toNat / 4096 % 64 ∧
        0x80 + c.toNat / 4096 % 64 ≤ secondHi (0xF0 + c.toNat / 262144) ∧
        isCont (0x80 + c.toNat / 64 % 64) = true ∧ isCont (0x80 + c.toNat % 64) = true := by
      refine ⟨?_, ?_, isCont_mod _, isCont_mod _⟩
      · unfold secondLo
        split_ifs <;> omega
      · unfold secondHi
        split_ifs <;> omega
    have a5 : (((0xF0 + c.toNat / 262144 - 0xF0) * 64 + (0x80 + c.toNat / 4096 % 64 - 0x80)) * 64 +
        (0x80 + c.toNat / 64 % 64 - 0x80)) * 64 + (0x80 + c.toNat % 64 - 0x80) = c.toNat := by
      omega
    simp only [h1, h2, h3, if_true, if_false, List.cons_append, List.nil_append, decodeRune,
      a1, a2, a3, a3', a4, a5, Char.ofNat_toNat, and_self, List.length_cons, List.length_nil]

/-- The bytes of the character just decoded are passed over. -/
theorem decodePieces_skip (pre bs : List Nat) :
    decodePieces pre.length (pre ++ bs) = decodePieces 0 bs := by
  induction pre with
  | nil => rfl
  | cons b pre ih => simpa [decodePieces] using ih

/-- An encoding has at least one byte. -/
theorem encodeChar_ne_nil (c : Char) : ∃ b tl, encodeChar c = b :: tl := by
  unfold encodeChar
  split_ifs <;> exact ⟨_, _, rfl⟩

/-- The bytes of a character, followed by more bytes, decode to the character
followed by what the other bytes decode to. -/
theorem decodePieces_encodeChar (c : Char) (bs : List Nat) :
    decodePieces 0 (encodeChar c ++ bs) = some c :: decodePieces 0 bs := by
  obtain ⟨b, tl, h⟩ := encodeChar_ne_nil c
  have hr := decodeRune_encodeChar c bs
  rw [h] at hr ⊢
  rw [List.cons_append] at hr ⊢
  rw [decodePieces, hr]
  simp only [List.length_cons, Nat.add_sub_cancel]
  exact congrArg _ (decodePieces_skip tl bs)

/-- The UTF-8 bytes of a text decode to its characters; no byte is rejected. -/
theorem decodePieces_encodeUtf8 (cs : List Char) :
    decodePieces 0 (encodeUtf8 cs) = cs.map some := by
  induction cs with
  | nil => rfl
  | cons c cs ih => rw [encodeUtf8, decodePieces_encodeChar, ih]; rfl

/-- Bytes that start no well-formed encoding are rejected one at a time, as
`utf8.DecodeRuneInString` does: a continuation byte on its own, an overlong
form, an encoded surrogate, a code above U+10FFFF, a lead byte whose
continuation is missing or is no continuation byte, and the byte `ff`. -/
theorem decodePieces_rejects :
    decodePieces 0 [0x80] = [none] ∧
    decodePieces 0 [0xC0, 0x80] = [none, none] ∧
    decodePieces 0 [0xE0, 0x80, 0x80] = [none, none, none] ∧
    decodePieces 0 [0xED, 0xA0, 0x80] = [none, none, none] ∧
    decodePieces 0 [0xF4, 0x90, 0x80, 0x80] = [none, none, none, none] ∧
    decodePieces 0 [0xE2, 0x82] = [none, none] ∧
    decodePieces 0 [0xC3, 0x28] = [none, some '('] ∧
    decodePieces 0 [0xC3, 0xFF] = [none, none] ∧
    decodePieces 0 [0x6f, 0xff, 0x6e] = [some 'o', none, some 'n'] := by
  decide

/-- What `json.Marshal` writes for some strings: quote, backslash and line feed
take their short escapes, other control characters and `<`, `>`, `&` take
`\u00XX`, DEL and characters outside ASCII are copied, and a byte that is no
UTF-8 becomes `\ufffd`. -/
theorem goQuote_examples :
    goQuote ("on" : String) = "\"on\"" ∧
    goQuote ("a\"b\\c\nd" : String) = "\"a\\\"b\\\\c\\nd\"" ∧
    goQuote ("\x01<>&\x7f" : String) = "\"\\u0001\\u003c\\u003e\\u0026\x7f\"" ∧
    goQuote ("café" : String) = "\"café\"" ∧
    goQuote brokenMode = "\"o\\ufffdn\"" := by
  decide

/-- The text of the Go string of a text is that text. -/
theorem toText_coe (text : String) : GoString.toText (text : GoString) = text := by
  show String.mk ((decodePieces 0 (encodeUtf8 text.data)).map
    (fun piece => piece.getD (Char.ofNat 0xFFFD))) = text
  rw [decodePieces_encodeUtf8, List.map_map]
  have : ((fun piece : Option Char => piece.getD (Char.ofNat 0xFFFD)) ∘ some) = id := by
    funext c
    rfl
  rw [this, List.map_id]

/-- The digits written by `Nat.digitChar` are hexadecimal digits with their
value. -/
theorem digitChar_hex : ∀ k, k < 16 → (Nat.digitChar k, k) ∈ hexDigits := by
  decide

/-- The escape `\u00XY` written for a character below 256 writes its code. -/
theorem HexQuad_low (c : Char) (h : c.toNat < 256) :
    HexQuad '0' '0' (Nat.digitChar (c.toNat / 16)) (Nat.digitChar (c.toNat % 16)) c.toNat :=
  ⟨0, 0, c.toNat / 16, c.toNat % 16, by decide, by decide, digitChar_hex _ (by omega),
    digitChar_hex _ (by omega), by omega⟩

/-- What `json.Marshal` writes for a character is a string literal for it. -/
theorem StrText_goEscapeChar (c : Char) (s t : List Char) (h : StrText s t) :
    StrText (c :: s) (goEscapeChar c ++ t) := by
  by_cases h1 : c = '"'
  · subst h1
    exact StrText.letter '"' '"' s t (by decide) h
  by_cases h2 : c = '\\'
  · subst h2
    exact StrText.letter '\\' '\\' s t (by decide) h
  by_cases h3 : c = '\n'
  · subst h3
    exact StrText.letter 'n' '\n' s t (by decide) h
  by_cases h4 : c = '\r'
  · subst h4
    exact StrText.letter 'r' '\r' s t (by decide) h
  by_cases h5 : c = '\t'
  · subst h5
    exact StrText.letter 't' '\t' s t (by decide) h
  have e1 : (c == '"') = false := by simpa using h1
  have e2 : (c == '\\') = false := by simpa using h2
  have e3 : (c == '\n') = false := by simpa using h3
  have e4 : (c == '\r') = false := by simpa using h4
  have e5 : (c == '\t') = false := by simpa using h5
  unfold goEscapeChar
  simp only [e1, e2, e3, e4, e5, if_false, Bool.false_eq_true]
  by_cases h6 : c.toNat = 8
  · have hc : c = Char.ofNat 8 := by rw [← Char.ofNat_toNat c, h6]
    subst hc
    exact StrText.letter 'b' (Char.ofNat 8) s t (by decide) h
  by_cases h7 : c.toNat = 12
  · have hc : c = Char.ofNat 12 := by rw [← Char.ofNat_toNat c, h7]
    subst hc
    exact StrText.letter 'f' (Char.ofNat 12) s t (by decide) h
  have e6 : (c.toNat == 8) = false := by simpa using h6
  have e7 : (c.toNat == 12) = false := by simpa using h7
  simp only [e6, e7, if_false, Bool.false_eq_true]
  by_cases h8 : (decide (c.toNat < 0x20) || c == '<' || c == '>' || c == '&') = true
  · have hlow : c.toNat < 256 := by
      simp only [Bool.or_eq_true, decide_eq_true_eq, beq_iff_eq] at h8
      rcases h8 with ((h | h) | h) | h
      · omega
      · subst h; decide
      · subst h; decide
      · subst h; decide
    simp only [h8, if_true]
    have hu := StrText.unicode '0' '0' (Nat.digitChar (c.toNat / 16))
      (Nat.digitChar (c.toNat % 16)) c.toNat s t (HexQuad_low c hlow) (Or.inl (by omega)) h
    rw [Char.ofNat_toNat] at hu
    exact hu
  simp only [h8, if_false]
  by_cases h9 : c.toNat = 0x2028
  · have hc : c = Char.ofNat 0x2028 := by rw [← Char.ofNat_toNat c, h9]
    subst hc
    exact StrText.unicode '2' '0' '2' '8' 0x2028 s t
      ⟨2, 0, 2, 8, by decide, by decide, by decide, by decide, rfl⟩ (Or.inl (by decide)) h
  by_cases h10 : c.toNat = 0x2029
  · have hc : c = Char.ofNat 0x2029 := by rw [← Char.ofNat_toNat c, h10]
    subst hc
    exact StrText.unicode '2' '0' '2' '9' 0x2029 s t
      ⟨2, 0, 2, 9, by decide, by decide, by decide, by decide, rfl⟩ (Or.inl (by decide)) h
  have e9 : (c.toNat == 0x2028) = false := by simpa using h9
  have e10 : (c.toNat == 0x2029) = false := by simpa using h10
  simp only [e9, e10, if_false, Bool.false_eq_true]
  have hge : 0x20 ≤ c.toNat := by
    by_contra hlt
    apply h8
    have : c.toNat < 0x20 := by omega
    simp [this]
  exact StrText.plain c s t h1 h2 hge h

/-- What `json.Marshal` writes for a string is a string literal for its text,
with U+FFFD in the place of every rejected byte. -/
theorem StrText_goEscape (pieces : List (Option Char)) :
    StrText (pieces.map (fun piece => piece.getD (Char.ofNat 0xFFFD))) (goEscape pieces) := by
  induction pieces with
  | nil => exact StrText.done
  | cons piece pieces ih =>
    cases piece with
    | some c => exact StrText_goEscapeChar c _ _ ih
    | none =>
      exact StrText.unicode 'f' 'f' 'f' 'd' 0xfffd _ _
        ⟨15, 15, 15, 13, by decide, by decide, by decide, by decide, rfl⟩ (Or.inr (by decide)) ih

/-- The payload with the one member `value` is a JSON text for the object with
that single field, whose value is the text of the Go string. -/
theorem value_payload_text (m : GoString) :
    JsonText (Json.obj [("value", Json.str m.toText)])
      ("\x7b\"value\":" ++ goQuote m ++ "\x7d").data :=
  ⟨[], _, [], Blank_nil, Blank_nil,
    Text.obj _ _ _ _
      (Text.member [] [] [] _ _ _ _ Blank_nil Blank_nil Blank_nil
        (StrText_plain "value".data (by decide))
        (Text.str _ _ (StrText_goEscape (decodePieces 0 m.bytes))))
      (Text.membersEnd [] Blank_nil),
    by simp [goQuote, String.data_append]⟩

/-- The payload of `DevelopmentMode` and `SecureLevel`. -/
theorem value_payload (m : GoString) :
    jsonMarshalStringMap [("value", m)] =
      Except.ok ("\x7b\"value\":" ++ goQuote m ++ "\x7d") := by
  have h : goQuote ("value" : String) = "\"value\"" := by decide
  simp only [jsonMarshalStringMap, List.map, joinMembers, h]
  simp only [String.append_assoc]
  rfl

/-- C8 as stated fails.  First world: the lookup succeeds with zone id `abc123`
and the PATCH fails in transport; `DevelopmentMode` returns the transport error,
not a response body.  Second world: the lookup succeeds with a zone id that
holds a line feed; the PATCH cannot be built and is never issued.  Third world:
the mode holds the byte `ff`, which is no UTF-8; the body carries the literal
`"o\ufffdn"`, and its text `o`, U+FFFD, `n` is another string than the mode. -/
theorem DevelopmentMode_patch_may_fail :
    ((GetZoneId (sampleEnv noVars oneZone (Reply.doErr "connection reset"))
        sampleParams "example.com" []).1 = Ret.ret "abc123" none ∧
     DevelopmentMode (sampleEnv noVars oneZone (Reply.doErr "connection reset"))
        sampleParams "example.com" "on" [] =
      (Ret.ret "" (some "connection reset"),
        [⟨"GET", "https://api.cloudflare.com/client/v4/zones?name=example.com",
           authHeader sampleParams, none⟩,
         ⟨"PATCH",
           "https://api.cloudflare.com/client/v4/zones/abc123/settings/development_mode",
           authHeader sampleParams, some "\x7b\"value\":\"on\"\x7d"⟩])) ∧
    ((GetZoneId (sampleEnv noVars oddZone (Reply.body "ok"))
        sampleParams "example.com" []).1 = Ret.ret "abc\n123" none ∧
     DevelopmentMode (sampleEnv noVars oddZone (Reply.body "ok"))
        sampleParams "example.com" "on" [] =
      (Ret.ret "" (some "net/url: invalid control character in URL"),
        [⟨"GET", "https://api.cloudflare.com/client/v4/zones?name=example.com",
           authHeader sampleParams, none⟩])) ∧
    (DevelopmentMode (sampleEnv noVars oneZone (Reply.body "done"))
        sampleParams "example.com" brokenMode [] =
      (Ret.ret "done" none,
        [⟨"GET", "https://api.cloudflare.com/client/v4/zones?name=example.com",
           authHeader sampleParams, none⟩,
         ⟨"PATCH",
           "https://api.cloudflare.com/client/v4/zones/abc123/settings/development_mode",
           authHeader sampleParams, some "\x7b\"value\":\"o\\ufffdn\"\x7d"⟩]) ∧
     brokenMode.toText = "o\uFFFDn" ∧
     (("o\uFFFDn" : String) : GoString) ≠ brokenMode) := by
  decide

/-- C8, amended: for every domain whose zone lookup succeeds with zone id `z`
and for which the PATCH to `<base>/zones/z/settings/development_mode` can be
built, and for every mode string `m` (no validation that it is `on` or `off`),
`DevelopmentMode` issues the lookup GET and then that PATCH.  The body of the
PATCH is a JSON text for the object with the single field `value`, whose value
is the text of `m` with U+FFFD in the place of every byte that is no UTF-8: it
is `m` itself whenever `m` is well-formed UTF-8, and the body is exactly
`{"value":"on"}` for `m = "on"`.  When the PATCH is answered with a body `b`,
`DevelopmentMode` returns `b` with no error. -/
theorem DevelopmentMode_patches (env : Env) (p : Params) (domain : String) (m : GoString)
    (sent : List Request) (z : String)
    (hz : (GetZoneId env p domain sent).1 = Ret.ret z none)
    (hreq : env.newRequest "PATCH"
      ("https://api.cloudflare.com/client/v4" ++ "/zones/" ++ z ++
        "/settings/development_mode") = none) :
    (DevelopmentMode env p domain m sent).2 =
      sent ++
        [⟨"GET", "https://api.cloudflare.com/client/v4" ++ "/zones?name=" ++ domain,
           [("X-Auth-Email", p.Email), ("X-Auth-Key", p.Key),
             ("Content-Type", "application/json")], none⟩,
         ⟨"PATCH",
           "https://api.cloudflare.com/client/v4" ++ "/zones/" ++ z ++
             "/settings/development_mode",
           [("X-Auth-Email", p.Email), ("X-Auth-Key", p.Key),
             ("Content-Type", "application/json")],
           some ("\x7b\"value\":" ++ goQuote m ++ "\x7d")⟩] ∧
    JsonText (Json.obj [("value", Json.str m.toText)])
      ("\x7b\"value\":" ++ goQuote m ++ "\x7d").data ∧
    (∀ text : String, m = (text : GoString) →
      JsonText (Json.obj [("value", Json.str text)])
        ("\x7b\"value\":" ++ goQuote m ++ "\x7d").data) ∧
    "\x7b\"value\":" ++ goQuote ("on" : String) ++ "\x7d" = "\x7b\"value\":\"on\"\x7d" ∧
    ∀ b : String,
      env.roundTrip
        (sent ++ [⟨"GET", "https://api.cloudflare.com/client/v4" ++ "/zones?name=" ++ domain,
          [("X-Auth-Email", p.Email), ("X-Auth-Key", p.Key),
            ("Content-Type", "application/json")], none⟩])
        ⟨"PATCH",
          "https://api.cloudflare.com/client/v4" ++ "/zones/" ++ z ++
            "/settings/development_mode",
          [("X-Auth-Email", p.Email), ("X-Auth-Key", p.Key),
            ("Content-Type", "application/json")],
          some ("\x7b\"value\":" ++ goQuote m ++ "\x7d")⟩ = Reply.body b →
      (DevelopmentMode env p domain m sent).1 = Ret.ret b none := by
  have hz2 := GetZoneId_of_ok env p domain sent z hz
  have htext : ∀ text : String, m = (text : GoString) →
      JsonText (Json.obj [("value", Json.str text)])
        ("\x7b\"value\":" ++ goQuote m ++ "\x7d").data := by
    intro text hm
    have h := value_payload_text m
    rw [hm, toText_coe] at h
    rw [hm]
    exact h
  refine ⟨?_, value_payload_text m, htext, by decide, ?_⟩
  all_goals simp only [← authHeader_eq]
  all_goals
    change env.newRequest "PATCH"
      (ApiUrl ++ "/zones/" ++ z ++ "/settings/development_mode") = none at hreq
  all_goals
    have hrun : DevelopmentMode env p domain m sent =
        sendAction env p "PATCH" (ApiUrl ++ "/zones/" ++ z ++ "/settings/development_mode")
          ("\x7b\"value\":" ++ goQuote m ++ "\x7d")
          (sent ++ [⟨"GET", ApiUrl ++ "/zones?name=" ++ domain, authHeader p, none⟩]) := by
      simp only [DevelopmentMode, hz2]
      rw [value_payload]
  all_goals rw [hrun, sendAction_of_built env p _ _ _ _ hreq]
  · simp only [List.append_assoc, List.singleton_append]
    rfl
  · intro b hb
    change env.roundTrip
      (sent ++ [⟨"GET", ApiUrl ++ "/zones?name=" ++ domain, authHeader p, none⟩])
      ⟨"PATCH", ApiUrl ++ "/zones/" ++ z ++ "/settings/development_mode", authHeader p,
        some ("\x7b\"value\":" ++ goQuote m ++ "\x7d")⟩ = Reply.body b at hb
    simp only [hb]

/-- C8, amended, at `example.com`, zone id `abc123` and mode `on`: two requests,
the PATCH with body `{"value":"on"}`, and the body `done` of its reply is
returned. -/
theorem DevelopmentMode_patches_witness :
    (DevelopmentMode (sampleEnv noVars oneZone (Reply.body "done")) sampleParams
        "example.com" "on" []).2 =
      [⟨"GET", "https://api.cloudflare.com/client/v4/zones?name=example.com",
         [("X-Auth-Email", "ops@example.com"), ("X-Auth-Key", "s3cr3t"),
           ("Content-Type", "application/json")], none⟩,
       ⟨"PATCH",
         "https://api.cloudflare.com/client/v4/zones/abc123/settings/development_mode",
         [("X-Auth-Email", "ops@example.com"), ("X-Auth-Key", "s3cr3t"),
           ("Content-Type", "application/json")],
         some "\x7b\"value\":\"on\"\x7d"⟩] ∧
    (DevelopmentMode (sampleEnv noVars oneZone (Reply.body "done")) sampleParams
        "example.com" "on" []).1 = Ret.ret "done" none :=
  ⟨(DevelopmentMode_patches (sampleEnv noVars oneZone (Reply.body "done")) sampleParams
      "example.com" "on" [] "abc123" (by decide) (by decide)).1,
   (DevelopmentMode_patches (sampleEnv noVars oneZone (Reply.body "done")) sampleParams
      "example.com" "on" [] "abc123" (by decide) (by decide)).2.2.2.2 "done" (by decide)⟩

/-- The requests of `SecureLevel` when the lookup succeeds with zone id `z` and
the PATCH can be built: the lookup GET, then the PATCH carrying the level. -/
theorem SecureLevel_sent (env : Env) (p : Params) (domain : String) (level : GoString)
    (sent : List Request) (z : String)
    (hz : (GetZoneId env p domain sent).1 = Ret.ret z none)
    (hreq : env.newRequest "PATCH"
      (ApiUrl ++ "/zones/" ++ z ++ "/settings/security_level") = none) :
    (SecureLevel env p domain level sent).2 =
      sent ++
        [⟨"GET", ApiUrl ++ "/zones?name=" ++ domain, authHeader p, none⟩,
         ⟨"PATCH", ApiUrl ++ "/zones/" ++ z ++ "/settings/security_level", authHeader p,
           some ("\x7b\"value\":" ++ goQuote level ++ "\x7d")⟩] := by
  have hz2 := GetZoneId_of_ok env p domain sent z hz
  simp only [SecureLevel, hz2]
  rw [value_payload]
  simp only []
  rw [sendAction_of_built env p _ _ _ _ hreq]
  simp only [List.append_assoc, List.singleton_append]

/-- C1 as stated fails: with `-secure-level attack`, no PATCH is sent when the
zone lookup fails (first world, the connection is refused and `SecureLevel`
ends the process), nor when the zone id cannot be put into a URL (second world,
a zone id with a line feed); the lookup is then the only request of the run.
Moreover the method `SecureLevel` does not translate: called with `attack` it
sends `{"value":"attack"}`; the translation is made by `main` before the
call. -/
theorem main_attack_without_patch :
    main (sampleEnv noVars (Reply.doErr "connection refused") (Reply.body "ok"))
        ⟨"ops@example.com", "s3cr3t", "example.com", false, "", "attack"⟩ =
      ⟨[Call.SecureLevel sampleParams "example.com" "under_attack"],
        [⟨"GET", "https://api.cloudflare.com/client/v4/zones?name=example.com",
           authHeader sampleParams, none⟩],
        [Output.log "Error getting zone id: connection refused"], 1⟩ ∧
    main (sampleEnv noVars oddZone (Reply.body "ok"))
        ⟨"ops@example.com", "s3cr3t", "example.com", false, "", "attack"⟩ =
      ⟨[Call.SecureLevel sampleParams "example.com" "under_attack"],
        [⟨"GET", "https://api.cloudflare.com/client/v4/zones?name=example.com",
           authHeader sampleParams, none⟩],
        [Output.log
          "Error setting security level: net/url: invalid control character in URL"],
        1⟩ ∧
    (SecureLevel (sampleEnv noVars oneZone (Reply.body "done")) sampleParams
        "example.com" "attack" []).2 =
      [⟨"GET", "https://api.cloudflare.com/client/v4/zones?name=example.com",
          authHeader sampleParams, none⟩,
       ⟨"PATCH",
          "https://api.cloudflare.com/client/v4/zones/abc123/settings/security_level",
          authHeader sampleParams, some "\x7b\"value\":\"attack\"\x7d"⟩] := by
  decide

/-- C1, amended: in a run that selects the security-level action with one of
the tokens `attack`, `high`, `medium`, `low`, when the zone lookup succeeds with
zone id `z` and the PATCH to `<base>/zones/z/settings/security_level` can be
built, the run sends the lookup GET and then that PATCH, whose body is
`{"value":"under_attack"}` for `attack` and `{"value":<level>}` with the token
unchanged for the other three. -/
theorem main_secure_level_payload (env : Env) (flags : Flags) (z : String)
    (hc : flags.cache = false)
    (hlevel : flags.secureLevel = "attack" ∨ flags.secureLevel = "high" ∨
      flags.secureLevel = "medium" ∨ flags.secureLevel = "low")
    (hz : (GetZoneId env (mainParams env flags) (mainDomain env flags) []).1 = Ret.ret z none)
    (hreq : env.newRequest "PATCH"
      ("https://api.cloudflare.com/client/v4" ++ "/zones/" ++ z ++
        "/settings/security_level") = none) :
    (main env flags).sent =
      [⟨"GET",
          "https://api.cloudflare.com/client/v4" ++ "/zones?name=" ++ mainDomain env flags,
          [("X-Auth-Email", (mainParams env flags).Email),
            ("X-Auth-Key", (mainParams env flags).Key),
            ("Content-Type", "application/json")], none⟩,
       ⟨"PATCH",
          "https://api.cloudflare.com/client/v4" ++ "/zones/" ++ z ++
            "/settings/security_level",
          [("X-Auth-Email", (mainParams env flags).Email),
            ("X-Auth-Key", (mainParams env flags).Key),
            ("Content-Type", "application/json")],
          some (if flags.secureLevel = "attack" then "\x7b\"value\":\"under_attack\"\x7d"
            else "\x7b\"value\":\"" ++ flags.secureLevel ++ "\"\x7d")⟩] := by
  have hs : flags.secureLevel ≠ "" := by
    rcases hlevel with h | h | h | h <;> rw [h] <;> decide
  have key : ∀ level : GoString,
      (secureLevelArm env (mainParams env flags) (mainDomain env flags) level).sent =
        [⟨"GET", ApiUrl ++ "/zones?name=" ++ mainDomain env flags,
            authHeader (mainParams env flags), none⟩,
         ⟨"PATCH", ApiUrl ++ "/zones/" ++ z ++ "/settings/security_level",
            authHeader (mainParams env flags),
            some ("\x7b\"value\":" ++ goQuote level ++ "\x7d")⟩] := by
    intro level
    rw [(secureLevelArm_calls_sent _ _ _ _).2, SecureLevel_sent env _ _ level [] z hz hreq]
    rfl
  rw [main_of_secureLevel env flags hc hs]
  rcases hlevel with h | h | h | h
  · rw [h, if_pos rfl, if_pos rfl, key]
    rfl
  · rw [h, if_neg (by decide), if_pos rfl, if_neg (by decide), key]
    rfl
  · rw [h, if_neg (by decide), if_neg (by decide), if_pos rfl, if_neg (by decide), key]
    rfl
  · rw [h, if_neg (by decide), if_neg (by decide), if_neg (by decide), if_pos rfl,
      if_neg (by decide), key]
    rfl

/-- C1, amended, at `-secure-level attack` for `example.com` with zone id
`abc123`. -/
theorem main_secure_level_payload_witness :
    (main (sampleEnv noVars oneZone (Reply.body "done"))
        ⟨"ops@example.com", "s3cr3t", "example.com", false, "", "attack"⟩).sent =
      [⟨"GET", "https://api.cloudflare.com/client/v4/zones?name=example.com",
          [("X-Auth-Email", "ops@example.com"), ("X-Auth-Key", "s3cr3t"),
            ("Content-Type", "application/json")], none⟩,
       ⟨"PATCH",
          "https://api.cloudflare.com/client/v4/zones/abc123/settings/security_level",
          [("X-Auth-Email", "ops@example.com"), ("X-Auth-Key", "s3cr3t"),
            ("Content-Type", "application/json")],
          some "\x7b\"value\":\"under_attack\"\x7d"⟩] :=
  main_secure_level_payload (sampleEnv noVars oneZone (Reply.body "done"))
    ⟨"ops@example.com", "s3cr3t", "example.com", false, "", "attack"⟩ "abc123"
    (by decide) (by decide) (by decide) (by decide)

end Cftool
